import Mathlib

/-! Shallow embedding of the preseason-ordering import scripts
(`import_f25_orders.py` and `import_s26_orders.py`) and proofs of the
specification's claims about them.  Both scripts are the same seven-stage
pipeline (clean spreadsheet rows, resolve brands/locations/ship periods,
upsert products, create orders, insert order items, recompute order
totals) over one database transaction; they differ only in their static
mapping tables, season name, ship-period resolution and order-number year
suffix, which are gathered in a `Config`. -/

namespace Preseason

/-- Fuel-driven Euclid: `gcdFuel f m n` is gcd m n whenever `m < f`.
Structural recursion on the fuel keeps it kernel-computable. -/
def gcdFuel : Nat → Nat → Nat → Nat
  | 0, _, n => n
  | _ + 1, 0, n => n
  | f + 1, m + 1, n => gcdFuel f (n % (m + 1)) (m + 1)

/-- Greatest common divisor, kernel-computable. -/
def natGcd (m n : Nat) : Nat :=
  gcdFuel (m + 1) m n

/-- An exact rational number kept in lowest terms with positive
denominator, standing in for Python's numeric values.  All the
arithmetic the pipeline performs is exact, so floating-point rounding is
not modelled. -/
structure MRat where
  num : Int
  den : Nat
deriving DecidableEq, Repr

/-- Normalize `n / d` (with `d ≠ 0` in every use) to lowest terms. -/
def mkMRat (n : Int) (d : Nat) : MRat :=
  if d = 0 then ⟨0, 1⟩
  else
    let g := natGcd n.natAbs d
    if g = 0 then ⟨0, d⟩ else ⟨Int.tdiv n (g : Int), d / g⟩

/-- Embed an integer. -/
def MRat.ofInt (n : Int) : MRat := ⟨n, 1⟩

instance (n : Nat) : OfNat MRat n := ⟨⟨(n : Int), 1⟩⟩

instance : Neg MRat := ⟨fun q => ⟨-q.num, q.den⟩⟩

/-- Exact multiplication. -/
def MRat.mul (a b : MRat) : MRat :=
  mkMRat (a.num * b.num) (a.den * b.den)

/-- Exact addition. -/
def MRat.add (a b : MRat) : MRat :=
  mkMRat (a.num * (b.den : Int) + b.num * (a.den : Int)) (a.den * b.den)

/-- A spreadsheet cell as the scripts see it: a column missing from the
sheet (`absent` — the `Series.get` default applies), an empty cell read as
float NaN (`nan`), a numeric value (`num`, Python ints/floats modelled as
exact rationals; float infinities are not modelled), or text (`str`). -/
inductive Cell where
  | absent
  | nan
  | num (q : MRat)
  | str (s : String)
deriving DecidableEq, Repr

/-- `pd.isna` on a cell: NaN (or a missing column) counts as missing. -/
def Cell.isna : Cell → Bool
  | .nan => true
  | .absent => true
  | _ => false

/-- Python truthiness of a cell value: NaN is truthy, a number is truthy
iff nonzero, a string iff nonempty. -/
def Cell.truthy : Cell → Bool
  | .nan => true
  | .num q => q.num != 0
  | .str s => s != ""
  | .absent => false

/-- ASCII whitespace, as stripped by `str.strip` / `.str.strip()`. -/
def isSpaceChar (c : Char) : Bool :=
  c = ' ' || c = '\t' || c = '\n' || c = '\r'

/-- Python `s.strip()`. -/
def pyStrip (s : String) : String :=
  String.mk (((s.data.dropWhile isSpaceChar).reverse.dropWhile isSpaceChar).reverse)

/-- Python `s[:n]`. -/
def pyTake (n : Nat) (s : String) : String :=
  String.mk (s.data.take n)

/-- Python `s.upper()` (ASCII letters are all that occurs in the data). -/
def pyUpper (s : String) : String :=
  String.mk (s.data.map Char.toUpper)

/-- Decimal representation of a rational; a stand-in for Python float
repr, used only where the scripts call `str` on a numeric cell.  It is
injective on reduced fractions and never empty, which is all the
pipeline depends on. -/
def ratRepr (q : MRat) : String :=
  toString q.num ++ (if q.den = 1 then "" else "/" ++ toString q.den)

/-- `str(x)` on a cell value. -/
def Cell.pyStr : Cell → String
  | .str s => s
  | .num q => ratRepr q
  | .nan => "nan"
  | .absent => "None"

/-- A Python float restricted to the values the import can produce: NaN
or an exact rational. -/
inductive PFloat where
  | nan
  | val (q : MRat)
deriving DecidableEq, Repr

/-- Float multiplication; NaN propagates. -/
def PFloat.mul : PFloat → PFloat → PFloat
  | .val a, .val b => .val (a.mul b)
  | _, _ => .nan

/-- Float addition; NaN propagates. -/
def PFloat.add : PFloat → PFloat → PFloat
  | .val a, .val b => .val (a.add b)
  | _, _ => .nan

/-- SQL `COALESCE(SUM(line_total), 0)`: the sum of a list of floats, 0
when the list is empty; NaN propagates as in SQL float arithmetic. -/
def pfSum (l : List PFloat) : PFloat :=
  l.foldr PFloat.add (.val 0)

/-- Base-10 value of a digit list. -/
def digitsVal (l : List Char) : Nat :=
  l.foldl (fun a c => a * 10 + (c.toNat - 48)) 0

/-- Parse an unsigned decimal literal (digits with an optional single
dot), as Python `float` accepts after sign handling; exponent notation is
not modelled (it does not occur in the data). -/
def parseUnsigned (l : List Char) : Option MRat :=
  let ds := l.takeWhile (·.isDigit)
  let rest := l.dropWhile (·.isDigit)
  match rest with
  | [] => if ds.isEmpty then none else some (MRat.ofInt (digitsVal ds))
  | '.' :: fs =>
    if fs.all (·.isDigit) && !(ds.isEmpty && fs.isEmpty) then
      some (mkMRat ((digitsVal ds * 10 ^ fs.length + digitsVal fs : Nat) : Int) (10 ^ fs.length))
    else none
  | _ => none

/-- Python `float(s)` on a string: strip, optional sign, decimal literal
or "nan" (case-insensitive); anything else is a `ValueError`. -/
def parseFloatStr (s : String) : Option PFloat :=
  let core : List Char → Bool → Option PFloat := fun l neg =>
    if pyUpper (String.mk l) = "NAN" then some .nan
    else (parseUnsigned l).map (fun q => .val (if neg then -q else q))
  match (pyStrip s).data with
  | '-' :: rest => core rest true
  | '+' :: rest => core rest false
  | l => core l false

/-- Python `float(x)` on a cell value. -/
def Cell.pyFloat : Cell → Except String PFloat
  | .num q => .ok (.val q)
  | .nan => .ok .nan
  | .str s =>
    match parseFloatStr s with
    | some f => .ok f
    | none => .error "ValueError: could not convert string to float"
  | .absent => .error "TypeError: float() argument"

/-- Python `int(x)` (pandas `astype(int)` applied per element): floats
truncate toward zero, integer-literal strings parse, anything else raises
(fatal for the whole run, since `astype` converts the whole column). -/
def Cell.pyInt : Cell → Except String Int
  | .num q => .ok (Int.tdiv q.num (q.den : Int))
  | .str s =>
    match (pyStrip s).toInt? with
    | some n => .ok n
    | none => .error "ValueError: invalid literal for int()"
  | .nan => .error "ValueError: cannot convert float NaN to integer"
  | .absent => .error "TypeError: int() argument"

/-- Lookup in an association list with Python-dict override semantics:
when a key is bound twice the later binding wins. -/
def dget {α β : Type} [DecidableEq α] (d : List (α × β)) (k : α) : Option β :=
  (d.reverse.find? (fun kv => decide (kv.1 = k))).map (fun kv => kv.2)

/-- Python dict `get` on a string-keyed dict applied to a cell value:
only text cells can equal a string key. -/
def dgetCell {β : Type} (d : List (String × β)) (c : Cell) : Option β :=
  match c with
  | .str s => dget d s
  | _ => none

/-- `if not x` on an id fetched from a dict: `None` and id `0` are both
falsy in Python, so the scripts treat them alike. -/
def truthyId : Option Nat → Bool
  | none => false
  | some n => n != 0

/-- `row.get(column, default)`: the default applies only when the column
is absent from the sheet (a present-but-NaN cell is returned as NaN). -/
def cellGet (c : Cell) (d : Cell) : Cell :=
  match c with
  | .absent => d
  | c => c

/-- `row[column]`: raises `KeyError` when the column is absent. -/
def cellIndex (c : Cell) : Except String Cell :=
  match c with
  | .absent => .error "KeyError"
  | c => .ok c

instance exceptDecEq {ε α : Type} [DecidableEq ε] [DecidableEq α] :
    DecidableEq (Except ε α) := fun a b =>
  match a, b with
  | .error e, .error f =>
    if h : e = f then .isTrue (congrArg Except.error h)
    else .isFalse (fun hh => h (Except.error.inj hh))
  | .ok x, .ok y =>
    if h : x = y then .isTrue (congrArg Except.ok h)
    else .isFalse (fun hh => h (Except.ok.inj hh))
  | .error _, .ok _ => .isFalse (fun hh => Except.noConfusion hh)
  | .ok _, .error _ => .isFalse (fun hh => Except.noConfusion hh)

/-- One raw spreadsheet row, in the columns the scripts read. -/
structure RawRow where
  upc : Cell
  brand : Cell
  gym : Cell
  shipMonth : Cell
  quantity : Cell
  wholesale : Cell
  retail : Cell
  description : Cell
  productNumber : Cell
  color : Cell
  size : Cell
deriving DecidableEq, Repr

/-- The row predicate of `df.dropna(subset=['UPC','Brand','Gym','Quantity'])`. -/
def requiredPresent (r : RawRow) : Bool :=
  !r.upc.isna && !r.brand.isna && !r.gym.isna && !r.quantity.isna

/-- A row after the cleaning step: UPC coerced to trimmed text, Quantity
to an integer; the remaining columns keep their cell values. -/
structure CleanRow where
  upc : String
  brand : Cell
  gym : Cell
  shipMonth : Cell
  quantity : Int
  wholesale : Cell
  retail : Cell
  description : Cell
  productNumber : Cell
  color : Cell
  size : Cell
deriving DecidableEq, Repr

/-- Coerce one surviving row: `astype(str).str.strip()` on UPC,
`astype(int)` on Quantity. -/
def coerceRow (r : RawRow) : Except String CleanRow :=
  match r.quantity.pyInt with
  | .error e => .error e
  | .ok q =>
    .ok { upc := pyStrip r.upc.pyStr, brand := r.brand, gym := r.gym,
          shipMonth := r.shipMonth, quantity := q, wholesale := r.wholesale,
          retail := r.retail, description := r.description,
          productNumber := r.productNumber, color := r.color, size := r.size }

/-- Coerce each surviving row in order; the first failure aborts. -/
def cleanGo : List RawRow → Except String (List CleanRow)
  | [] => .ok []
  | r :: rs =>
    match coerceRow r, cleanGo rs with
    | .ok c, .ok cs => .ok (c :: cs)
    | .error e, _ => .error e
    | .ok _, .error e => .error e

/-- The Loader: drop rows missing a required field, then coerce UPC and
Quantity; a coercion failure is fatal for the whole run (it happens
before the database connection is opened). -/
def cleanRows (rows : List RawRow) : Except String (List CleanRow) :=
  cleanGo (rows.filter requiredPresent)

/-- A row of the `seasons` table. -/
structure Season where
  id : Nat
  name : String
  status : String
deriving DecidableEq, Repr

/-- A row of the `brands` table (the import only reads it). -/
structure BrandRow where
  id : Nat
  name : String
deriving DecidableEq, Repr

/-- A row of the `locations` table (the import only reads it). -/
structure LocationRow where
  id : Nat
  code : String
deriving DecidableEq, Repr

/-- A row of the `products` table; the descriptive attributes store the
cell values the insert was given. -/
structure Product where
  id : Nat
  upc : Option String
  name : Cell
  sku : Cell
  color : Cell
  size : Cell
  wholesaleCost : Cell
  msrp : Cell
  brandId : Nat
  seasonId : Nat
  active : Bool
deriving DecidableEq, Repr

/-- A row of the `orders` table.  `currentTotal` starts at the column
default (taken as 0; the schema is outside the sources) and is only ever
read after the aggregator overwrote it for the season's orders. -/
structure Order where
  id : Nat
  orderNumber : String
  seasonId : Nat
  brandId : Nat
  locationId : Nat
  shipDate : String
  orderType : String
  status : String
  createdBy : Nat
  currentTotal : PFloat
deriving DecidableEq, Repr

/-- A row of the `order_items` table. -/
structure OrderItem where
  id : Nat
  orderId : Nat
  productId : Nat
  quantity : Int
  unitCost : PFloat
  lineTotal : PFloat
deriving DecidableEq, Repr

/-- The relational state the import touches.  Row lists are kept in
insertion order (also the order `SELECT` results are modelled to arrive
in); `nextId` models the serial id sequences as one shared counter. -/
structure DB where
  seasons : List Season
  brands : List BrandRow
  locations : List LocationRow
  products : List Product
  orders : List Order
  orderItems : List OrderItem
  nextId : Nat
deriving DecidableEq, Repr

/-- The per-variant constants of the two scripts: season name, the static
brand/location tables, the ship-period resolver (returning ship date and
order-number token) and the year suffix of synthesized order numbers. -/
structure Config where
  seasonName : String
  brandMap : List (String × String)
  locationMap : List (String × String)
  resolveShip : Cell → Except String (String × String)
  yearSuffix : String

/-- Stage 1 reduced to its effect: the id of the season with the given
name, inserting the row first when absent.  (F25 runs
`INSERT .. ON CONFLICT (name) DO UPDATE SET name = <same literal>
RETURNING id`, S26 a SELECT followed by a conditional INSERT; on a
name-unique seasons table both return the existing row's id unchanged and
otherwise insert one new row with status 'ordering'.) -/
def getOrCreateSeason (name : String) (db : DB) : Nat × DB :=
  match db.seasons.find? (fun s => s.name == name) with
  | some s => (s.id, db)
  | none =>
    (db.nextId,
     { db with
         seasons := db.seasons ++ [{ id := db.nextId, name := name, status := "ordering" }],
         nextId := db.nextId + 1 })

/-- Stage 2: `{name: id}` over the brands table, then keep the
spreadsheet labels of the static table whose canonical name exists. -/
def buildBrandIds (brandMap : List (String × String)) (db : DB) : List (String × Nat) :=
  let dbBrands : List (String × Nat) := db.brands.map (fun b => (b.name, b.id))
  brandMap.filterMap (fun kv => (dget dbBrands kv.2).map (fun i => (kv.1, i)))

/-- Stage 3: the same two-stage scheme for locations, keyed by code. -/
def buildLocationIds (locationMap : List (String × String)) (db : DB) : List (String × Nat) :=
  let dbLocations : List (String × Nat) := db.locations.map (fun l => (l.code, l.id))
  locationMap.filterMap (fun kv => (dget dbLocations kv.2).map (fun i => (kv.1, i)))

/-- `SELECT id, upc FROM products WHERE upc IS NOT NULL` as a dict. -/
def existingProductsMap (db : DB) : List (String × Nat) :=
  db.products.filterMap (fun p => p.upc.map (fun u => (u, p.id)))

/-- `df.drop_duplicates(subset=['UPC'])`: keep the first row per UPC. -/
def dedupByUpcGo : List CleanRow → List String → List CleanRow
  | [], _ => []
  | r :: rs, seen =>
    if r.upc ∈ seen then dedupByUpcGo rs seen
    else r :: dedupByUpcGo rs (r.upc :: seen)

/-- First row of each distinct UPC in the cleaned row set. -/
def dedupByUpc (rows : List CleanRow) : List CleanRow :=
  dedupByUpcGo rows []

/-- The products row a fresh insert creates. -/
def newProduct (u : String) (nm sku color size wcost msrp : Cell)
    (brandId seasonId : Nat) (db : DB) : Product :=
  { id := db.nextId, upc := some u, name := nm, sku := sku,
    color := color, size := size, wholesaleCost := wcost, msrp := msrp,
    brandId := brandId, seasonId := seasonId, active := true }

/-- `INSERT INTO products .. ON CONFLICT (upc) DO UPDATE SET
upc = EXCLUDED.upc RETURNING id`: on a upc conflict the existing row is
kept (the DO UPDATE rewrites upc to the same value) and its id returned;
otherwise one new row is appended. -/
def insertProductUpsert (u : String) (nm sku color size wcost msrp : Cell)
    (brandId seasonId : Nat) (db : DB) : Nat × DB :=
  match db.products.find? (fun q => q.upc == some u) with
  | some q => (q.id, db)
  | none =>
    (db.nextId,
     { db with
         products := db.products ++ [newProduct u nm sku color size wcost msrp brandId seasonId db],
         nextId := db.nextId + 1 })

/-- Stage 4 body for one deduplicated row: reuse the id of an already
existing UPC, otherwise insert (skipping rows whose brand is unresolved;
`row['Description']` raises when that column is absent). -/
def productStep (seasonId : Nat) (brandIds existing : List (String × Nat))
    (r : CleanRow) (pids : List (String × Nat)) (db : DB) (created : Nat) :
    Except String (List (String × Nat) × DB × Nat) :=
  match dget existing r.upc with
  | some i => .ok (pids ++ [(r.upc, i)], db, created)
  | none =>
    if truthyId (dgetCell brandIds r.brand) then
      match cellIndex r.description with
      | .error e => .error e
      | .ok nameCell =>
        .ok (pids ++ [(r.upc, (insertProductUpsert r.upc nameCell
               (cellGet r.productNumber (.str "")) (cellGet r.color (.str ""))
               (cellGet r.size (.str "")) (cellGet r.wholesale (.num 0))
               (cellGet r.retail (.num 0)) ((dgetCell brandIds r.brand).getD 0)
               seasonId db).1)],
             (insertProductUpsert r.upc nameCell
               (cellGet r.productNumber (.str "")) (cellGet r.color (.str ""))
               (cellGet r.size (.str "")) (cellGet r.wholesale (.num 0))
               (cellGet r.retail (.num 0)) ((dgetCell brandIds r.brand).getD 0)
               seasonId db).2,
             created + 1)
    else .ok (pids, db, created)

/-- Stage 4 loop over the deduplicated rows. -/
def productsGo (seasonId : Nat) (brandIds existing : List (String × Nat)) :
    List CleanRow → List (String × Nat) → DB → Nat →
    Except String (List (String × Nat) × DB × Nat)
  | [], pids, db, created => .ok (pids, db, created)
  | r :: rs, pids, db, created =>
    match productStep seasonId brandIds existing r pids db created with
    | .error e => .error e
    | .ok (pids', db', created') => productsGo seasonId brandIds existing rs pids' db' created'

/-- Stage 4: the product upsert pass.  The existing-products map is a
snapshot taken once, before the loop. -/
def processProducts (seasonId : Nat) (brandIds : List (String × Nat))
    (rows : List CleanRow) (db : DB) :
    Except String (List (String × Nat) × DB × Nat) :=
  productsGo seasonId brandIds (existingProductsMap db) (dedupByUpc rows) [] db 0

/-- The group keys of `df.groupby(['Brand','Gym','Ship Month'])`: the
distinct key triples, omitting triples with a missing (NaN) component, as
pandas does.  pandas emits groups in sorted key order; the claims proved
here do not depend on group order, and the keys are enumerated in
first-occurrence order. -/
def groupKeysGo : List CleanRow → List (Cell × Cell × Cell) → List (Cell × Cell × Cell)
  | [], _ => []
  | r :: rs, seen =>
    if r.brand.isna || r.gym.isna || r.shipMonth.isna then groupKeysGo rs seen
    else if (r.brand, r.gym, r.shipMonth) ∈ seen then groupKeysGo rs seen
    else (r.brand, r.gym, r.shipMonth) :: groupKeysGo rs ((r.brand, r.gym, r.shipMonth) :: seen)

/-- The distinct (Brand, Gym, Ship Month) group keys of the cleaned rows. -/
def groupKeys (rows : List CleanRow) : List (Cell × Cell × Cell) :=
  groupKeysGo rows []

/-- `base` is an initial segment of `s`. -/
def strStarts (base s : String) : Bool :=
  base.data.isPrefixOf s.data

/-- `SELECT COUNT(*) FROM orders WHERE order_number LIKE base || '%'`;
the trailing-% LIKE is modelled as string-prefix matching (the
synthesized bases contain no LIKE metacharacters in the shipped
configurations). -/
def countWithBase (base : String) (db : DB) : Nat :=
  (db.orders.filter (fun o => strStarts base o.orderNumber)).length

/-- The synthesized base order number
`{PERIOD_TOKEN}{YEAR_SUFFIX}-{BRAND_CODE}-{LOCATION_CODE}`:
`brand[:3].upper()` on the spreadsheet brand label, and the canonical
location code from the static table with fallback `'UNK'`. -/
def mkBase (cfg : Config) (token bLabel : String) (gym : Cell) : String :=
  token ++ cfg.yearSuffix ++ "-" ++ pyUpper (pyTake 3 bLabel) ++ "-" ++
    ((dgetCell cfg.locationMap gym).getD "UNK")

/-- The order one surviving group inserts. -/
def mkOrder (cfg : Config) (seasonId : Nat)
    (brandIds locationIds : List (String × Nat)) (bs : String)
    (gym : Cell) (shipDate token : String) (db : DB) : Order :=
  { id := db.nextId,
    orderNumber :=
      if countWithBase (mkBase cfg token bs gym) db > 0 then
        mkBase cfg token bs gym ++ "-" ++
          toString (countWithBase (mkBase cfg token bs gym) db + 1)
      else mkBase cfg token bs gym,
    seasonId := seasonId,
    brandId := (dgetCell brandIds (Cell.str bs)).getD 0,
    locationId := (dgetCell locationIds gym).getD 0,
    shipDate := shipDate, orderType := "preseason", status := "draft",
    createdBy := 1, currentTotal := .val 0 }

/-- Stage 5 body for one group: `none` when the group is skipped
(unresolved or falsy brand/location id), otherwise the inserted order and
updated state.  `brand[:3]` raises on a non-text brand cell, but the
resolution guard already forces a text cell there. -/
def processGroup (cfg : Config) (seasonId : Nat)
    (brandIds locationIds : List (String × Nat)) (brand gym shipMonth : Cell)
    (db : DB) : Except String (Option (Order × DB)) :=
  if truthyId (dgetCell brandIds brand) && truthyId (dgetCell locationIds gym) then
    match cfg.resolveShip shipMonth with
    | .error e => .error e
    | .ok (shipDate, token) =>
      match brand with
      | .str bs =>
        .ok (some (mkOrder cfg seasonId brandIds locationIds bs gym shipDate token db,
          { db with
              orders := db.orders ++
                [mkOrder cfg seasonId brandIds locationIds bs gym shipDate token db],
              nextId := db.nextId + 1 }))
      | _ => .error "TypeError: brand label not subscriptable"
  else
    .ok none

/-- Stage 5 loop over the group keys, building the group-to-order map. -/
def ordersGo (cfg : Config) (seasonId : Nat) (brandIds locationIds : List (String × Nat)) :
    List (Cell × Cell × Cell) → List ((Cell × Cell × Cell) × Nat) → DB → Nat →
    Except String (List ((Cell × Cell × Cell) × Nat) × DB × Nat)
  | [], omap, db, n => .ok (omap, db, n)
  | k :: ks, omap, db, n =>
    match processGroup cfg seasonId brandIds locationIds k.1 k.2.1 k.2.2 db with
    | .error e => .error e
    | .ok none => ordersGo cfg seasonId brandIds locationIds ks omap db n
    | .ok (some (o, db')) =>
      ordersGo cfg seasonId brandIds locationIds ks (omap ++ [(k, o.id)]) db' (n + 1)

/-- Stage 5: order creation, one order per surviving group. -/
def processOrders (cfg : Config) (seasonId : Nat)
    (brandIds locationIds : List (String × Nat)) (rows : List CleanRow) (db : DB) :
    Except String (List ((Cell × Cell × Cell) × Nat) × DB × Nat) :=
  ordersGo cfg seasonId brandIds locationIds (groupKeys rows) [] db 0

/-- `float(row.get('Wholesale', 0) or 0)`: the unit cost of a row. -/
def unitCostOf (w : Cell) : Except String PFloat :=
  let v := cellGet w (.num 0)
  (if v.truthy then v else Cell.num 0).pyFloat

/-- The order item one row inserts, given the resolved ids and the unit
cost: line total = unit cost × quantity. -/
def mkItem (db : DB) (productIds : List (String × Nat))
    (orderMap : List ((Cell × Cell × Cell) × Nat)) (r : CleanRow) (u : PFloat) :
    OrderItem :=
  { id := db.nextId, orderId := (dget orderMap (r.brand, r.gym, r.shipMonth)).getD 0,
    productId := (dget productIds r.upc).getD 0, quantity := r.quantity,
    unitCost := u, lineTotal := u.mul (.val (MRat.ofInt r.quantity)) }

/-- Stage 6 body for one cleaned row: count the row as skipped when its
product or order id is missing (or falsy), otherwise insert one order
item with line total = unit cost × quantity. -/
def itemStep (productIds : List (String × Nat))
    (orderMap : List ((Cell × Cell × Cell) × Nat)) (r : CleanRow)
    (db : DB) (added skipped : Nat) : Except String (DB × Nat × Nat) :=
  if truthyId (dget productIds r.upc) &&
     truthyId (dget orderMap (r.brand, r.gym, r.shipMonth)) then
    match unitCostOf r.wholesale with
    | .error e => .error e
    | .ok u =>
      .ok ({ db with
               orderItems := db.orderItems ++ [mkItem db productIds orderMap r u],
               nextId := db.nextId + 1 },
           added + 1, skipped)
  else
    .ok (db, added, skipped + 1)

/-- Stage 6 loop over every cleaned row (not deduplicated). -/
def itemsGo (productIds : List (String × Nat))
    (orderMap : List ((Cell × Cell × Cell) × Nat)) :
    List CleanRow → DB → Nat → Nat → Except String (DB × Nat × Nat)
  | [], db, added, skipped => .ok (db, added, skipped)
  | r :: rs, db, added, skipped =>
    match itemStep productIds orderMap r db added skipped with
    | .error e => .error e
    | .ok (db', added', skipped') => itemsGo productIds orderMap rs db' added' skipped'

/-- Stage 7: the bulk `UPDATE orders SET current_total = (SELECT
COALESCE(SUM(line_total), 0) FROM order_items WHERE order_id = o.id)
WHERE season_id = <current season>`. -/
def aggregate (seasonId : Nat) (db : DB) : DB :=
  { db with orders := db.orders.map (fun o =>
      if o.seasonId == seasonId then
        { o with currentTotal :=
            pfSum ((db.orderItems.filter (fun it => it.orderId == o.id)).map
              (fun it => it.lineTotal)) }
      else o) }

/-- The run's reported counters. -/
structure Summary where
  seasonId : Nat
  productsCreated : Nat
  ordersCreated : Nat
  itemsAdded : Nat
  itemsSkipped : Nat
deriving DecidableEq, Repr

/-- The body of the scripts' try-block: the seven stages in order against
one open transaction. -/
def txBody (cfg : Config) (rows : List CleanRow) (db : DB) :
    Except String (DB × Summary) :=
  match processProducts (getOrCreateSeason cfg.seasonName db).1
      (buildBrandIds cfg.brandMap (getOrCreateSeason cfg.seasonName db).2) rows
      (getOrCreateSeason cfg.seasonName db).2 with
  | .error e => .error e
  | .ok (productIds, db2, productsCreated) =>
    match processOrders cfg (getOrCreateSeason cfg.seasonName db).1
        (buildBrandIds cfg.brandMap (getOrCreateSeason cfg.seasonName db).2)
        (buildLocationIds cfg.locationMap (getOrCreateSeason cfg.seasonName db).2)
        rows db2 with
    | .error e => .error e
    | .ok (orderMap, db3, ordersCreated) =>
      match itemsGo productIds orderMap rows db3 0 0 with
      | .error e => .error e
      | .ok (db4, itemsAdded, itemsSkipped) =>
        .ok (aggregate (getOrCreateSeason cfg.seasonName db).1 db4,
             { seasonId := (getOrCreateSeason cfg.seasonName db).1,
               productsCreated := productsCreated,
               ordersCreated := ordersCreated, itemsAdded := itemsAdded,
               itemsSkipped := itemsSkipped })

/-- One whole run of an import script: clean the spreadsheet (before any
database write), run the transactional body, commit on success; on any
exception the transaction is rolled back — the returned state is the
input state — and the error re-raised. -/
def runImport (cfg : Config) (raw : List RawRow) (db : DB) :
    DB × Except String Summary :=
  match cleanRows raw with
  | .error e => (db, .error e)
  | .ok rows =>
    match txBody cfg rows db with
    | .ok p => (p.1, .ok p.2)
    | .error e => (db, .error e)

/-- `BRAND_MAP` of `import_f25_orders.py`. -/
def F25_BRAND_MAP : List (String × String) :=
  [("Prana", "Prana"), ("Free Fly", "Free Fly"),
   ("La Sportiva Footwear", "La Sportiva Footwear"),
   ("La Sportiva Apparel", "La Sportiva Apparel"),
   ("Petzl", "Petzl"), ("Montane", "Montane"), ("Ripton", "Ripton"),
   ("Metolius", "Metolius"), ("Scarpa", "Scarpa"), ("Sterling", "Sterling"),
   ("Duer", "Duer"), ("Patagonia", "Patagonia"), ("CAMP", "CAMP")]

/-- `LOCATION_MAP` of `import_f25_orders.py`. -/
def F25_LOCATION_MAP : List (String × String) :=
  [("SLC", "SLC"), ("SLC ", "SLC"), ("South Main", "SOMA"),
   ("Ogden", "OGD"), ("OGden", "OGD")]

/-- `SHIP_MONTH_MAP` of `import_f25_orders.py`. -/
def F25_SHIP_MONTH_MAP : List (String × String) :=
  [("Jul", "2025-07-01"), ("Aug", "2025-08-01"), ("Sep", "2025-09-01"),
   ("Oct", "2025-10-01"), ("Nov", "2025-11-01"), ("Dec", "2025-12-01"),
   ("Jan", "2026-01-01"), ("ASAP ", "2025-07-01")]

/-- F25 ship-period resolution: the ship date from the map with fixed
default '2025-08-01'; the order-number token is always
`ship_month.strip()[:3].upper()` — also for mapped labels — and a
non-text label raises `AttributeError` at the `.strip()` call. -/
def f25ResolveShip (c : Cell) : Except String (String × String) :=
  match c with
  | .str s => .ok ((dget F25_SHIP_MONTH_MAP s).getD "2025-08-01", pyUpper (pyTake 3 (pyStrip s)))
  | _ => .error "AttributeError: strip"

/-- The constants of `import_f25_orders.py`. -/
def f25Config : Config :=
  { seasonName := "Fall 2025", brandMap := F25_BRAND_MAP,
    locationMap := F25_LOCATION_MAP, resolveShip := f25ResolveShip,
    yearSuffix := "25" }

/-- `BRAND_MAP` of `import_s26_orders.py`. -/
def S26_BRAND_MAP : List (String × String) :=
  [("Prana", "Prana"), ("Free Fly", "Free Fly"),
   ("LaSportivaApparel", "La Sportiva Apparel"),
   ("LaSportivaEquipment", "La Sportiva Equipment"),
   ("LaSportiva", "La Sportiva"), ("ArcteryxFW", "ArcteryxFW"),
   ("Arcteryx", "Arcteryx"), ("Toad&Co", "Toad&Co"), ("TenTree", "TenTree"),
   ("DUER", "DUER"), ("Sterling", "Sterling"), ("Scarpa", "Scarpa"),
   ("Petzl", "Petzl"), ("DMM", "DMM"), ("Metolius", "Metolius")]

/-- `LOCATION_MAP` of `import_s26_orders.py`. -/
def S26_LOCATION_MAP : List (String × String) :=
  [("SLC", "SLC"), ("SouthMain", "SOMA"), ("Ogden", "OGD")]

/-- `SHIP_MONTH_MAP` of `import_s26_orders.py` (numeric code to ship date
and order-number token). -/
def S26_SHIP_MONTH_MAP : List (Int × (String × String)) :=
  [(126, ("2026-01-01", "JAN")), (226, ("2026-02-01", "FEB")),
   (326, ("2026-03-01", "MAR")), (426, ("2026-04-01", "APR")),
   (526, ("2026-05-01", "MAY")), (626, ("2026-06-01", "JUN"))]

/-- The S26 map hit for a cell key: a Python float key equals an integer
dict key exactly when the float is that integer. -/
def s26Hit (c : Cell) : Option (String × String) :=
  match c with
  | .num q => if q.den = 1 then dget S26_SHIP_MONTH_MAP q.num else none
  | _ => none

/-- S26 ship-period resolution: map hit, else the fixed fallback pair
('2026-03-01', 'MAR'); never raises. -/
def s26ResolveShip (c : Cell) : Except String (String × String) :=
  .ok ((s26Hit c).getD ("2026-03-01", "MAR"))

/-- The constants of `import_s26_orders.py`. -/
def s26Config : Config :=
  { seasonName := "Spring 2026", brandMap := S26_BRAND_MAP,
    locationMap := S26_LOCATION_MAP, resolveShip := s26ResolveShip,
    yearSuffix := "26" }

/-! Concrete fixtures used by witnesses and counterexamples: the sample
row of the spec's first scenario, and a database already holding the
brand and location rows that row needs. -/

/-- The spec §8 scenario row: Prana / SLC / Aug, quantity 5, wholesale
10.0, UPC "012345". -/
def wRow : RawRow :=
  { upc := .str "012345", brand := .str "Prana", gym := .str "SLC",
    shipMonth := .str "Aug", quantity := .num 5, wholesale := .num 10,
    retail := .num 25, description := .str "Tee", productNumber := .str "PN",
    color := .str "Blue", size := .str "M" }

/-- A database with the canonical brand and location rows preloaded. -/
def wDB : DB :=
  { seasons := [], brands := [{ id := 1, name := "Prana" }],
    locations := [{ id := 2, code := "SLC" }], products := [], orders := [],
    orderItems := [], nextId := 3 }

/-! General inversion and bookkeeping lemmas about the pipeline. -/

/-- Unfolding a successful transactional body into its stage results. -/
theorem txBody_ok_inv (cfg : Config) (rows : List CleanRow) (db : DB) (p : DB × Summary)
    (h : txBody cfg rows db = Except.ok p) :
    ∃ pids db2 omap db3 db4,
      processProducts (getOrCreateSeason cfg.seasonName db).1
        (buildBrandIds cfg.brandMap (getOrCreateSeason cfg.seasonName db).2) rows
        (getOrCreateSeason cfg.seasonName db).2
        = Except.ok (pids, db2, p.2.productsCreated) ∧
      processOrders cfg (getOrCreateSeason cfg.seasonName db).1
        (buildBrandIds cfg.brandMap (getOrCreateSeason cfg.seasonName db).2)
        (buildLocationIds cfg.locationMap (getOrCreateSeason cfg.seasonName db).2) rows db2
        = Except.ok (omap, db3, p.2.ordersCreated) ∧
      itemsGo pids omap rows db3 0 0
        = Except.ok (db4, p.2.itemsAdded, p.2.itemsSkipped) ∧
      p.1 = aggregate (getOrCreateSeason cfg.seasonName db).1 db4 ∧
      p.2.seasonId = (getOrCreateSeason cfg.seasonName db).1 := by
  unfold txBody at h
  split at h
  · exact absurd h (by simp)
  next pids db2 nP hp =>
    split at h
    · exact absurd h (by simp)
    next omap db3 nO ho =>
      split at h
      · exact absurd h (by simp)
      next db4 nA nK hi =>
        injection h with h
        subst h
        exact ⟨pids, db2, omap, db3, db4, hp, ho, hi, rfl, rfl⟩

/-- Unfolding a successful run into a successful cleaning step and a
successful transactional body. -/
theorem runImport_ok_inv (cfg : Config) (raw : List RawRow) (db : DB) (s : Summary)
    (h : (runImport cfg raw db).2 = Except.ok s) :
    ∃ rows, cleanRows raw = Except.ok rows ∧
      txBody cfg rows db = Except.ok ((runImport cfg raw db).1, s) := by
  cases hc : cleanRows raw with
  | error e =>
    have hri : runImport cfg raw db = (db, Except.error e) := by
      simp only [runImport, hc]
    rw [hri] at h
    exact absurd h (by simp)
  | ok rows =>
    cases ht : txBody cfg rows db with
    | error e =>
      have hri : runImport cfg raw db = (db, Except.error e) := by
        simp only [runImport, hc, ht]
      rw [hri] at h
      exact absurd h (by simp)
    | ok p =>
      have hri : runImport cfg raw db = (p.1, Except.ok p.2) := by
        simp only [runImport, hc, ht]
      rw [hri] at h
      have hs : p.2 = s := by simpa using h
      refine ⟨rows, rfl, ?_⟩
      rw [hri, ht, ← hs]

/-- The aggregator invariant for one database state: every order of the
season stores the sum of its items' line totals, and 0 when it has no
items. -/
def TotalsOk (db : DB) (sid : Nat) : Prop :=
  ∀ o ∈ db.orders, o.seasonId = sid →
    o.currentTotal =
      pfSum ((db.orderItems.filter (fun it => it.orderId == o.id)).map
        (fun it => it.lineTotal)) ∧
    (db.orderItems.filter (fun it => it.orderId == o.id) = [] →
      o.currentTotal = PFloat.val 0)

/-- Stage 7 establishes the aggregator invariant for the season it is
given, whatever the database state. -/
theorem aggregate_sound (sid : Nat) (d : DB) : TotalsOk (aggregate sid d) sid := by
  intro o ho hsid
  have hmem : o ∈ (d.orders.map (fun o₀ =>
      if o₀.seasonId == sid then
        { o₀ with currentTotal := pfSum ((d.orderItems.filter
            (fun it => it.orderId == o₀.id)).map (fun it => it.lineTotal)) }
      else o₀)) := ho
  rw [List.mem_map] at hmem
  obtain ⟨o₀, _, hfo⟩ := hmem
  by_cases h : (o₀.seasonId == sid) = true
  · rw [if_pos h] at hfo
    subst hfo
    refine ⟨rfl, fun hnil => ?_⟩
    show pfSum ((d.orderItems.filter (fun it => it.orderId == o₀.id)).map
      (fun it => it.lineTotal)) = PFloat.val 0
    have hnil' : d.orderItems.filter (fun it => it.orderId == o₀.id) = [] := hnil
    rw [hnil']
    rfl
  · rw [if_neg h] at hfo
    subst hfo
    exact absurd (beq_iff_eq.mpr hsid) h

/-- Each row processed by stage 6 bumps exactly one of the counters. -/
theorem itemStep_counts (pids : List (String × Nat))
    (omap : List ((Cell × Cell × Cell) × Nat)) (r : CleanRow) (db : DB)
    (a k : Nat) (st' : DB × Nat × Nat)
    (h : itemStep pids omap r db a k = Except.ok st') :
    (st'.2.1 = a + 1 ∧ st'.2.2 = k) ∨ (st'.2.1 = a ∧ st'.2.2 = k + 1) := by
  unfold itemStep at h
  split at h
  · split at h
    · exact absurd h (by simp)
    · injection h with h
      subst h
      exact Or.inl ⟨rfl, rfl⟩
  · injection h with h
    subst h
    exact Or.inr ⟨rfl, rfl⟩

/-- Stage 6 accounts for every row exactly once:
added + skipped grows by the number of rows processed. -/
theorem itemsGo_counts (pids : List (String × Nat))
    (omap : List ((Cell × Cell × Cell) × Nat)) (rows : List CleanRow) (db : DB)
    (a k : Nat) (db' : DB) (a' k' : Nat)
    (h : itemsGo pids omap rows db a k = Except.ok (db', a', k')) :
    a' + k' = a + k + rows.length := by
  induction rows generalizing db a k with
  | nil =>
    unfold itemsGo at h
    injection h with h
    injection h with h1 h
    injection h with h2 h3
    subst h1; subst h2; subst h3
    simp
  | cons r rs ih =>
    unfold itemsGo at h
    cases hs : itemStep pids omap r db a k with
    | error e => rw [hs] at h; exact absurd h (by simp)
    | ok st' =>
      rw [hs] at h
      obtain ⟨db₁, a₁, k₁⟩ := st'
      have hc := itemStep_counts pids omap r db a k _ hs
      have := ih db₁ a₁ k₁ h
      simp only at hc
      rcases hc with ⟨h1, h2⟩ | ⟨h1, h2⟩ <;> subst h1 <;> subst h2 <;>
        simp only [List.length_cons] <;> omega

/-- Every list produced by a successful coercion pass has the length of
its input. -/
theorem cleanGo_length (l : List RawRow) (rs : List CleanRow)
    (h : cleanGo l = Except.ok rs) : rs.length = l.length := by
  induction l generalizing rs with
  | nil => unfold cleanGo at h; injection h with h; rw [← h]; rfl
  | cons r l ih =>
    unfold cleanGo at h
    cases h1 : coerceRow r with
    | error e => rw [h1] at h; exact absurd h (by simp)
    | ok c =>
      cases h2 : cleanGo l with
      | error e => rw [h1, h2] at h; exact absurd h (by simp)
      | ok cs =>
        rw [h1, h2] at h
        injection h with h
        rw [← h, List.length_cons, List.length_cons, ih cs h2]

/-- Every row produced by a successful coercion pass is the coercion of
some input row. -/
theorem cleanGo_mem (l : List RawRow) (rs : List CleanRow)
    (h : cleanGo l = Except.ok rs) :
    ∀ r ∈ rs, ∃ r0 ∈ l, coerceRow r0 = Except.ok r := by
  induction l generalizing rs with
  | nil =>
    unfold cleanGo at h; injection h with h
    intro r hr; rw [← h] at hr; exact absurd hr (by simp)
  | cons r0 l ih =>
    unfold cleanGo at h
    cases h1 : coerceRow r0 with
    | error e => rw [h1] at h; exact absurd h (by simp)
    | ok c =>
      cases h2 : cleanGo l with
      | error e => rw [h1, h2] at h; exact absurd h (by simp)
      | ok cs =>
        rw [h1, h2] at h
        injection h with h
        intro r hr
        rw [← h] at hr
        rcases List.mem_cons.mp hr with hrc | hrs
        · exact ⟨r0, List.mem_cons_self _ _, by rw [h1, hrc]⟩
        · obtain ⟨r1, hr1, hc1⟩ := ih cs h2 r hrs
          exact ⟨r1, List.mem_cons_of_mem _ hr1, hc1⟩

/-! Dict (association list with later-binding-wins lookup) lemmas. -/

theorem dget_cons {α β : Type} [DecidableEq α] (x : α × β) (d : List (α × β)) (u : α) :
    dget (x :: d) u = (dget d u).or (if x.1 = u then some x.2 else none) := by
  unfold dget
  rw [List.reverse_cons, List.find?_append]
  cases hf : (d.reverse.find? fun kv => decide (kv.1 = u)) with
  | some kv => rfl
  | none =>
    show (List.find? (fun kv => decide (kv.1 = u)) [x]).map (fun kv => kv.2)
      = Option.or none (if x.1 = u then some x.2 else none)
    by_cases hx : x.1 = u
    · simp [List.find?, hx]
    · simp [List.find?, hx]

theorem dget_append_single {α β : Type} [DecidableEq α] (d : List (α × β))
    (k : α) (v : β) (u : α) :
    dget (d ++ [(k, v)]) u = if k = u then some v else dget d u := by
  unfold dget
  rw [List.reverse_append]
  show ((List.find? (fun kv => decide (kv.1 = u)) ((k, v) :: d.reverse))).map
      (fun kv => kv.2) = _
  rw [List.find?_cons]
  by_cases hk : k = u
  · simp [hk]
  · rw [if_neg hk, decide_eq_false hk]

theorem dget_eq_none_of_no_key {α β : Type} [DecidableEq α] (d : List (α × β)) (u : α)
    (h : ∀ kv ∈ d, kv.1 ≠ u) : dget d u = none := by
  unfold dget
  rw [List.find?_eq_none.mpr]
  · rfl
  · intro kv hkv
    simp only [decide_eq_true_eq]
    exact h kv (List.mem_reverse.mp hkv)

theorem dget_mem {α β : Type} [DecidableEq α] (d : List (α × β)) (u : α) (v : β)
    (h : dget d u = some v) : (u, v) ∈ d := by
  unfold dget at h
  cases hf : (d.reverse.find? fun kv => decide (kv.1 = u)) with
  | none => rw [hf] at h; exact absurd h (by simp)
  | some kv =>
    rw [hf] at h
    have hk : kv.1 = u := by
      have := List.find?_some hf
      simpa using this
    have hv : kv.2 = v := by simpa using h
    have hmem : kv ∈ d := List.mem_reverse.mp (List.mem_of_find?_eq_some hf)
    have : kv = (u, v) := by
      rw [← hk, ← hv]
    rw [← this]
    exact hmem

/-- When the products table has exactly one row with a given non-null
UPC, the existing-products dict maps that UPC to the row's id. -/
theorem dget_existing (l : List Product) (u : String) (p : Product)
    (h : l.filter (fun q => q.upc == some u) = [p]) :
    dget (l.filterMap (fun q => q.upc.map (fun s => (s, q.id)))) u = some p.id := by
  induction l with
  | nil => exact absurd h (by simp)
  | cons q l ih =>
    rw [List.filter_cons] at h
    by_cases hq : (q.upc == some u) = true
    · rw [if_pos hq] at h
      injection h with h1 h2
      subst h1
      have hu : q.upc = some u := by simpa using hq
      have hnone : ∀ q' ∈ l, (q'.upc == some u) = false := by
        intro q' hq'
        by_cases hc : (q'.upc == some u) = true
        · exfalso
          have : q' ∈ l.filter (fun q => q.upc == some u) :=
            List.mem_filter.mpr ⟨hq', hc⟩
          rw [h2] at this
          exact absurd this (by simp)
        · exact Bool.eq_false_iff.mpr hc
      rw [List.filterMap_cons, hu]
      show dget ((u, q.id) :: l.filterMap (fun q => q.upc.map (fun s => (s, q.id)))) u
        = some q.id
      rw [dget_cons, dget_eq_none_of_no_key]
      · simp
      · intro kv hkv
        rw [List.mem_filterMap] at hkv
        obtain ⟨q', hq', hmap⟩ := hkv
        cases hup : q'.upc with
        | none => rw [hup] at hmap; exact absurd hmap (by simp)
        | some s =>
          rw [hup] at hmap
          injection hmap with hmap
          have hs : kv.1 = s := by rw [← hmap]
          rw [hs]
          intro hsu
          subst hsu
          have := hnone q' hq'
          rw [hup] at this
          simp at this
    · rw [if_neg hq] at h
      have ihr := ih h
      rw [List.filterMap_cons]
      cases hup : q.upc with
      | none => exact ihr
      | some s =>
        show dget ((s, q.id) :: l.filterMap (fun q => q.upc.map (fun s => (s, q.id)))) u
          = some p.id
        rw [dget_cons, ihr]
        rfl

theorem dget_isSome_of_key {α β : Type} [DecidableEq α] (d : List (α × β)) (k : α)
    (v : β) (h : (k, v) ∈ d) : ∃ w, dget d k = some w := by
  cases hd : dget d k with
  | some w => exact ⟨w, rfl⟩
  | none =>
    exfalso
    unfold dget at hd
    cases hf : (d.reverse.find? fun kv => decide (kv.1 = k)) with
    | some kv => rw [hf] at hd; exact absurd hd (by simp)
    | none =>
      have := List.find?_eq_none.mp hf (k, v) (List.mem_reverse.mpr h)
      simp at this

/-! Frame lemmas: which database fields each stage leaves untouched. -/

theorem getOrCreateSeason_frame (n : String) (db : DB) :
    (getOrCreateSeason n db).2.brands = db.brands ∧
    (getOrCreateSeason n db).2.locations = db.locations ∧
    (getOrCreateSeason n db).2.products = db.products ∧
    (getOrCreateSeason n db).2.orders = db.orders ∧
    (getOrCreateSeason n db).2.orderItems = db.orderItems := by
  unfold getOrCreateSeason
  split
  · exact ⟨rfl, rfl, rfl, rfl, rfl⟩
  · exact ⟨rfl, rfl, rfl, rfl, rfl⟩

theorem insertProductUpsert_frame (u : String) (nm sku color size wcost msrp : Cell)
    (bId sId : Nat) (db : DB) :
    (insertProductUpsert u nm sku color size wcost msrp bId sId db).2.brands = db.brands ∧
    (insertProductUpsert u nm sku color size wcost msrp bId sId db).2.locations = db.locations ∧
    (insertProductUpsert u nm sku color size wcost msrp bId sId db).2.orders = db.orders ∧
    (insertProductUpsert u nm sku color size wcost msrp bId sId db).2.orderItems = db.orderItems ∧
    ∃ ext, (insertProductUpsert u nm sku color size wcost msrp bId sId db).2.products
      = db.products ++ ext := by
  unfold insertProductUpsert
  split
  · exact ⟨rfl, rfl, rfl, rfl, [], (List.append_nil _).symm⟩
  · exact ⟨rfl, rfl, rfl, rfl, [newProduct u nm sku color size wcost msrp bId sId db], rfl⟩

theorem productStep_frame (sid : Nat) (bIds existing : List (String × Nat))
    (r : CleanRow) (pids : List (String × Nat)) (db : DB) (created : Nat)
    (pids' : List (String × Nat)) (db' : DB) (created' : Nat)
    (h : productStep sid bIds existing r pids db created
      = Except.ok (pids', db', created')) :
    db'.brands = db.brands ∧ db'.locations = db.locations ∧
    db'.orders = db.orders ∧ db'.orderItems = db.orderItems ∧
    ∃ ext, db'.products = db.products ++ ext := by
  unfold productStep at h
  split at h
  · injection h with h
    injection h with h1 h
    injection h with h2 h3
    subst h2
    exact ⟨rfl, rfl, rfl, rfl, [], (List.append_nil _).symm⟩
  · split at h
    · split at h
      · exact absurd h (by simp)
      · injection h with h
        injection h with h1 h
        injection h with h2 h3
        subst h2
        exact insertProductUpsert_frame _ _ _ _ _ _ _ _ _ _
    · injection h with h
      injection h with h1 h
      injection h with h2 h3
      subst h2
      exact ⟨rfl, rfl, rfl, rfl, [], (List.append_nil _).symm⟩

theorem productsGo_frame (sid : Nat) (bIds existing : List (String × Nat))
    (rs : List CleanRow) :
    ∀ (pids : List (String × Nat)) (db : DB) (created : Nat)
      (pids' : List (String × Nat)) (db' : DB) (created' : Nat),
      productsGo sid bIds existing rs pids db created = Except.ok (pids', db', created') →
      db'.brands = db.brands ∧ db'.locations = db.locations ∧
      db'.orders = db.orders ∧ db'.orderItems = db.orderItems ∧
      ∃ ext, db'.products = db.products ++ ext := by
  induction rs with
  | nil =>
    intro pids db created pids' db' created' h
    unfold productsGo at h
    injection h with h
    injection h with h1 h
    injection h with h2 h3
    subst h2
    exact ⟨rfl, rfl, rfl, rfl, [], (List.append_nil _).symm⟩
  | cons r rs ih =>
    intro pids db created pids' db' created' h
    unfold productsGo at h
    cases hs : productStep sid bIds existing r pids db created with
    | error e => rw [hs] at h; exact absurd h (by simp)
    | ok st' =>
      rw [hs] at h
      obtain ⟨pids₁, db₁, created₁⟩ := st'
      obtain ⟨hb, hl, ho, hi, ext₁, hp⟩ :=
        productStep_frame sid bIds existing r pids db created pids₁ db₁ created₁ hs
      obtain ⟨hb', hl', ho', hi', ext₂, hp'⟩ := ih pids₁ db₁ created₁ pids' db' created' h
      refine ⟨hb'.trans hb, hl'.trans hl, ho'.trans ho, hi'.trans hi,
        ext₁ ++ ext₂, ?_⟩
      rw [hp', hp, List.append_assoc]

theorem processGroup_some (cfg : Config) (sid : Nat)
    (bIds lIds : List (String × Nat)) (brand gym shipMonth : Cell) (db : DB)
    (o : Order) (db' : DB)
    (h : processGroup cfg sid bIds lIds brand gym shipMonth db
      = Except.ok (some (o, db'))) :
    db'.brands = db.brands ∧ db'.locations = db.locations ∧
    db'.products = db.products ∧ db'.orderItems = db.orderItems ∧
    db'.orders = db.orders ++ [o] ∧
    ∃ g bs shipDate token, brand = Cell.str bs ∧ gym = Cell.str g ∧
      (∃ v, dget lIds g = some v) ∧
      cfg.resolveShip shipMonth = Except.ok (shipDate, token) ∧
      o = mkOrder cfg sid bIds lIds bs (Cell.str g) shipDate token db := by
  unfold processGroup at h
  split at h
  next hg =>
    rw [Bool.and_eq_true] at hg
    obtain ⟨hb, hl⟩ := hg
    cases gym with
    | absent => exact absurd hl (by simp [dgetCell, truthyId])
    | nan => exact absurd hl (by simp [dgetCell, truthyId])
    | num q => exact absurd hl (by simp [dgetCell, truthyId])
    | str g =>
      have hlv : ∃ v, dget lIds g = some v := by
        cases hv : dget lIds g with
        | none =>
          exfalso
          have : dgetCell lIds (Cell.str g) = none := hv
          rw [this] at hl
          exact absurd hl (by simp [truthyId])
        | some v => exact ⟨v, rfl⟩
      split at h
      · exact absurd h (by simp)
      next shipDate token heq =>
        cases brand with
        | absent => exact absurd h (by simp)
        | nan => exact absurd h (by simp)
        | num q => exact absurd h (by simp)
        | str bs =>
          injection h with h
          injection h with h
          have ho : o = mkOrder cfg sid bIds lIds bs (Cell.str g) shipDate token db :=
            (congrArg Prod.fst h).symm
          have hdb : db' = { db with
              orders := db.orders ++
                [mkOrder cfg sid bIds lIds bs (Cell.str g) shipDate token db],
              nextId := db.nextId + 1 } :=
            (congrArg Prod.snd h).symm
          subst hdb
          exact ⟨rfl, rfl, rfl, rfl, by rw [ho], g, bs, shipDate, token, rfl, rfl,
            hlv, heq, ho⟩
  · exact absurd h (by simp)

/-- An order number synthesized from a location label that the static
table resolves (so the 'UNK' fallback was not taken, as long as 'UNK' is
not itself a table value). -/
def NumberFromMap (cfg : Config) (lIds : List (String × Nat)) (o : Order) : Prop :=
  ∃ bs g token, (∃ v, dget lIds g = some v) ∧
    (o.orderNumber = mkBase cfg token bs (Cell.str g) ∨
     ∃ m : Nat, o.orderNumber = mkBase cfg token bs (Cell.str g) ++ "-" ++ toString m)

/-- A synthesized order's number is the base, or the base with a numeric
suffix. -/
theorem mkOrder_number (cfg : Config) (sid : Nat) (bIds lIds : List (String × Nat))
    (bs : String) (gym : Cell) (shipDate token : String) (db : DB) :
    (mkOrder cfg sid bIds lIds bs gym shipDate token db).orderNumber
      = mkBase cfg token bs gym ∨
    ∃ m : Nat, (mkOrder cfg sid bIds lIds bs gym shipDate token db).orderNumber
      = mkBase cfg token bs gym ++ "-" ++ toString m := by
  by_cases hc : countWithBase (mkBase cfg token bs gym) db > 0
  · right
    refine ⟨countWithBase (mkBase cfg token bs gym) db + 1, ?_⟩
    show (if countWithBase (mkBase cfg token bs gym) db > 0 then
        mkBase cfg token bs gym ++ "-" ++
          toString (countWithBase (mkBase cfg token bs gym) db + 1)
      else mkBase cfg token bs gym)
      = mkBase cfg token bs gym ++ "-" ++
          toString (countWithBase (mkBase cfg token bs gym) db + 1)
    rw [if_pos hc]
  · left
    show (if countWithBase (mkBase cfg token bs gym) db > 0 then
        mkBase cfg token bs gym ++ "-" ++
          toString (countWithBase (mkBase cfg token bs gym) db + 1)
      else mkBase cfg token bs gym)
      = mkBase cfg token bs gym
    rw [if_neg hc]

theorem ordersGo_frame (cfg : Config) (sid : Nat)
    (bIds lIds : List (String × Nat)) (ks : List (Cell × Cell × Cell)) :
    ∀ (omap : List ((Cell × Cell × Cell) × Nat)) (db : DB) (n : Nat)
      (omap' : List ((Cell × Cell × Cell) × Nat)) (db' : DB) (n' : Nat),
      ordersGo cfg sid bIds lIds ks omap db n = Except.ok (omap', db', n') →
      db'.brands = db.brands ∧ db'.locations = db.locations ∧
      db'.products = db.products ∧ db'.orderItems = db.orderItems ∧
      ∀ o ∈ db'.orders, o ∈ db.orders ∨ NumberFromMap cfg lIds o := by
  induction ks with
  | nil =>
    intro omap db n omap' db' n' h
    unfold ordersGo at h
    injection h with h
    injection h with h1 h
    injection h with h2 h3
    subst h2
    exact ⟨rfl, rfl, rfl, rfl, fun o ho => Or.inl ho⟩
  | cons k ks ih =>
    intro omap db n omap' db' n' h
    unfold ordersGo at h
    cases hs : processGroup cfg sid bIds lIds k.1 k.2.1 k.2.2 db with
    | error e => rw [hs] at h; exact absurd h (by simp)
    | ok r =>
      rw [hs] at h
      cases r with
      | none =>
        exact ih omap db n omap' db' n' h
      | some p =>
        obtain ⟨o₁, db₁⟩ := p
        obtain ⟨hb, hl, hp, hi, horders, g, bs, shipDate, token, _, hgym, hlv, _, ho₁⟩ :=
          processGroup_some cfg sid bIds lIds k.1 k.2.1 k.2.2 db o₁ db₁ hs
        obtain ⟨hb', hl', hp', hi', hprov⟩ := ih _ db₁ (n + 1) omap' db' n' h
        refine ⟨hb'.trans hb, hl'.trans hl, hp'.trans hp, hi'.trans hi, ?_⟩
        intro o ho
        rcases hprov o ho with hmem | hnum
        · rw [horders] at hmem
          rcases List.mem_append.mp hmem with hmem | hmem
          · exact Or.inl hmem
          · right
            have ho' : o = o₁ := by simpa using hmem
            subst ho'
            rw [ho₁]
            refine ⟨bs, g, token, hlv, ?_⟩
            exact mkOrder_number cfg sid bIds lIds bs (Cell.str g) shipDate token db
        · exact Or.inr hnum

theorem itemStep_frame (pids : List (String × Nat))
    (omap : List ((Cell × Cell × Cell) × Nat)) (r : CleanRow) (db : DB)
    (a k : Nat) (db' : DB) (a' k' : Nat)
    (h : itemStep pids omap r db a k = Except.ok (db', a', k')) :
    db'.brands = db.brands ∧ db'.locations = db.locations ∧
    db'.products = db.products ∧ db'.orders = db.orders := by
  unfold itemStep at h
  split at h
  · split at h
    · exact absurd h (by simp)
    · injection h with h
      injection h with h1 h
      subst h1
      exact ⟨rfl, rfl, rfl, rfl⟩
  · injection h with h
    injection h with h1 h
    subst h1
    exact ⟨rfl, rfl, rfl, rfl⟩

theorem itemsGo_frame (pids : List (String × Nat))
    (omap : List ((Cell × Cell × Cell) × Nat)) (rows : List CleanRow) :
    ∀ (db : DB) (a k : Nat) (db' : DB) (a' k' : Nat),
      itemsGo pids omap rows db a k = Except.ok (db', a', k') →
      db'.brands = db.brands ∧ db'.locations = db.locations ∧
      db'.products = db.products ∧ db'.orders = db.orders := by
  induction rows with
  | nil =>
    intro db a k db' a' k' h
    unfold itemsGo at h
    injection h with h
    injection h with h1 h
    subst h1
    exact ⟨rfl, rfl, rfl, rfl⟩
  | cons r rs ih =>
    intro db a k db' a' k' h
    unfold itemsGo at h
    cases hs : itemStep pids omap r db a k with
    | error e => rw [hs] at h; exact absurd h (by simp)
    | ok st' =>
      rw [hs] at h
      obtain ⟨db₁, a₁, k₁⟩ := st'
      obtain ⟨hb, hl, hp, ho⟩ := itemStep_frame pids omap r db a k db₁ a₁ k₁ hs
      obtain ⟨hb', hl', hp', ho'⟩ := ih db₁ a₁ k₁ db' a' k' h
      exact ⟨hb'.trans hb, hl'.trans hl, hp'.trans hp, ho'.trans ho⟩

theorem aggregate_frame (sid : Nat) (d : DB) :
    (aggregate sid d).brands = d.brands ∧ (aggregate sid d).locations = d.locations ∧
    (aggregate sid d).products = d.products ∧
    (aggregate sid d).orderItems = d.orderItems :=
  ⟨rfl, rfl, rfl, rfl⟩

theorem aggregate_orders_mem (sid : Nat) (d : DB) :
    ∀ o ∈ (aggregate sid d).orders, ∃ o₀ ∈ d.orders,
      o.orderNumber = o₀.orderNumber ∧ o.id = o₀.id := by
  intro o ho
  have hmem : o ∈ (d.orders.map (fun o₀ =>
      if o₀.seasonId == sid then
        { o₀ with currentTotal := pfSum ((d.orderItems.filter
            (fun it => it.orderId == o₀.id)).map (fun it => it.lineTotal)) }
      else o₀)) := ho
  rw [List.mem_map] at hmem
  obtain ⟨o₀, ho₀, hfo⟩ := hmem
  by_cases hcase : (o₀.seasonId == sid) = true
  · rw [if_pos hcase] at hfo
    exact ⟨o₀, ho₀, by rw [← hfo], by rw [← hfo]⟩
  · rw [if_neg hcase] at hfo
    exact ⟨o₀, ho₀, by rw [← hfo], by rw [← hfo]⟩

theorem buildBrandIds_congr (bm : List (String × String)) (db db' : DB)
    (h : db.brands = db'.brands) : buildBrandIds bm db = buildBrandIds bm db' := by
  unfold buildBrandIds
  rw [h]

theorem buildLocationIds_congr (lm : List (String × String)) (db db' : DB)
    (h : db.locations = db'.locations) :
    buildLocationIds lm db = buildLocationIds lm db' := by
  unfold buildLocationIds
  rw [h]

theorem existingProductsMap_congr (db db' : DB) (h : db.products = db'.products) :
    existingProductsMap db = existingProductsMap db' := by
  unfold existingProductsMap
  rw [h]

/-! Claim C1. -/

/-- C1: after the Aggregator stage of a successful run, every order of
the current season stores exactly the sum of its order items' line
totals, and an order with no items stores total 0. -/
theorem C1_aggregator_totals (cfg : Config) (raw : List RawRow) (db : DB) (s : Summary)
    (h : (runImport cfg raw db).2 = Except.ok s) :
    TotalsOk (runImport cfg raw db).1 s.seasonId := by
  obtain ⟨rows, _, ht⟩ := runImport_ok_inv cfg raw db s h
  obtain ⟨pids, db2, omap, db3, db4, _, _, _, hagg, hsid⟩ :=
    txBody_ok_inv cfg rows db _ ht
  simp only at hagg hsid
  rw [hagg, hsid]
  exact aggregate_sound _ _

/-- Witness for C1: the spec's scenario row on a prepared database. -/
theorem C1_aggregator_totals_witness :
    TotalsOk (runImport f25Config [wRow] wDB).1 3 :=
  C1_aggregator_totals f25Config [wRow] wDB
    { seasonId := 3, productsCreated := 1, ordersCreated := 1,
      itemsAdded := 1, itemsSkipped := 0 } (by decide)

/-! Claim C2. -/

/-- C2: an exception raised inside the transactional body rolls the
whole run back — the returned database state is exactly the input state,
with no partial commit — and the error is re-raised, failing the run. -/
theorem C2_rollback (cfg : Config) (raw : List RawRow) (rows : List CleanRow)
    (db : DB) (e : String) (hc : cleanRows raw = Except.ok rows)
    (ht : txBody cfg rows db = Except.error e) :
    runImport cfg raw db = (db, Except.error e) := by
  simp only [runImport, hc, ht]

/-- A row whose Wholesale cell is the non-numeric text "N/A": the unit
cost computation in stage 6 raises `ValueError` inside the transaction. -/
def c2Row : RawRow :=
  { wRow with wholesale := .str "N/A" }

/-- `wRow` after the cleaning step. -/
def wClean : CleanRow :=
  { upc := "012345", brand := .str "Prana", gym := .str "SLC",
    shipMonth := .str "Aug", quantity := 5, wholesale := .num 10,
    retail := .num 25, description := .str "Tee", productNumber := .str "PN",
    color := .str "Blue", size := .str "M" }

/-- `c2Row` after the cleaning step. -/
def c2Clean : CleanRow :=
  { wClean with wholesale := .str "N/A" }

/-- Witness for C2: the "N/A" wholesale row fails mid-transaction and
the database comes back unchanged with the error propagated. -/
theorem C2_rollback_witness :
    runImport f25Config [c2Row] wDB =
      (wDB, Except.error "ValueError: could not convert string to float") :=
  C2_rollback f25Config [c2Row] [c2Clean] wDB
    "ValueError: could not convert string to float" (by decide) (by decide)

/-! Claim C3. -/

/-- The claim's per-row property: a cleaned row has a nonnegative
quantity and a nonempty UPC. -/
def cleanRowOkC3 (r : CleanRow) : Bool :=
  decide (0 ≤ r.quantity) && !(r.upc == "")

/-- A row present in all required fields but with quantity −5 and a
whitespace-only UPC. -/
def c3Raw : RawRow :=
  { wRow with upc := .str " ", quantity := .num (-5) }

/-- Counterexample to C3 as stated: `c3Raw` passes the required-field
filter and survives cleaning, yet its cleaned quantity is the negative
integer −5 and its cleaned UPC is the empty string, so the claim "every
surviving row has a positive-or-zero Quantity and a non-empty UPC" is
false at this input. -/
theorem C3_counterexample :
    Except.map (fun rs => rs.all cleanRowOkC3) (cleanRows [c3Raw]) =
      Except.ok false := by decide

/-- The corrected loader property: on success, cleaning keeps exactly
the rows with all required fields present (rows missing one are
discarded before resolution), and every surviving row is the field
coercion of such a row (integer quantity, trimmed text UPC — possibly
negative or empty respectively). -/
def loaderOk (raw : List RawRow) : Bool :=
  match cleanRows raw with
  | .error _ => true
  | .ok rs =>
    (rs.length == (raw.filter requiredPresent).length) &&
    rs.all (fun r => raw.any (fun r0 =>
      requiredPresent r0 && decide (coerceRow r0 = Except.ok r)))

/-- C3 (amended): rows missing any of {UPC, Brand, Gym, Quantity} are
discarded before resolution; every surviving row is the coercion of a
required-complete raw row, with Quantity an integer (not necessarily
nonnegative) and UPC a trimmed string (possibly empty). -/
theorem C3_loader_cleaning (raw : List RawRow) : loaderOk raw = true := by
  unfold loaderOk
  cases hc : cleanRows raw with
  | error e => rfl
  | ok rs =>
    rw [Bool.and_eq_true, beq_iff_eq, List.all_eq_true]
    have hc' : cleanGo (raw.filter requiredPresent) = Except.ok rs := hc
    constructor
    · exact cleanGo_length _ _ hc'
    · intro r hr
      obtain ⟨r0, hr0, hco⟩ := cleanGo_mem _ _ hc' r hr
      rw [List.any_eq_true]
      refine ⟨r0, (List.mem_filter.mp hr0).1, ?_⟩
      rw [Bool.and_eq_true, decide_eq_true_eq]
      exact ⟨(List.mem_filter.mp hr0).2, hco⟩

/-! Claim C4. -/

/-- Counterexample to C4 as stated: the Wholesale value "N/A" is
non-numeric, and instead of defaulting the unit cost to 0 the code
raises `ValueError`, which aborts the whole run — so "no failure on a
non-numeric value" is false at this input. -/
theorem C4_counterexample :
    unitCostOf (.str "N/A") =
      Except.error "ValueError: could not convert string to float" ∧
    (runImport f25Config [c2Row] wDB).2 =
      Except.error "ValueError: could not convert string to float" := by decide

/-- C4 (amended): for every cleaned row whose product and order both
resolved, the inserted OrderItem's line total equals unit cost ×
quantity, where the unit cost is `float(row.get('Wholesale', 0) or 0)`:
0 when the Wholesale column is absent, the value is the empty string, or
the value is 0; the numeric value itself otherwise; NaN for an empty
(NaN) cell; and a non-numeric non-empty text value raises `ValueError`
(aborting the run) instead of defaulting to 0. -/
theorem C4_line_total (pids : List (String × Nat))
    (omap : List ((Cell × Cell × Cell) × Nat)) (r : CleanRow) (db : DB)
    (a k : Nat) (db' : DB) (a' k' : Nat) (q : MRat) (s : String)
    (h : itemStep pids omap r db a k = Except.ok (db', a', k'))
    (hins : a' = a + 1) (hq : q.num ≠ 0) (hne : s ≠ "")
    (hs : parseFloatStr s = none) :
    (∃ u, unitCostOf r.wholesale = Except.ok u ∧
       db'.orderItems = db.orderItems ++ [mkItem db pids omap r u] ∧
       (mkItem db pids omap r u).lineTotal =
         u.mul (.val (MRat.ofInt r.quantity)) ∧
       (mkItem db pids omap r u).quantity = r.quantity) ∧
    unitCostOf .absent = Except.ok (.val 0) ∧
    unitCostOf (.str "") = Except.ok (.val 0) ∧
    unitCostOf (.num q) = Except.ok (.val q) ∧
    unitCostOf (.num 0) = Except.ok (.val 0) ∧
    unitCostOf .nan = Except.ok .nan ∧
    unitCostOf (.str s) =
      Except.error "ValueError: could not convert string to float" := by
  refine ⟨?_, rfl, rfl, ?_, rfl, rfl, ?_⟩
  · unfold itemStep at h
    split at h
    · split at h
      · exact absurd h (by simp)
      next u hu =>
        injection h with h
        injection h with h1 h
        injection h with h2 h3
        subst h1
        exact ⟨u, hu, rfl, rfl, rfl⟩
    · injection h with h
      injection h with h1 h
      injection h with h2 h3
      omega
  · have ht : (Cell.num q).truthy = true := bne_iff_ne.mpr hq
    show (if (Cell.num q).truthy = true then Cell.num q else Cell.num 0).pyFloat
      = Except.ok (PFloat.val q)
    rw [ht, if_pos rfl]
    rfl
  · have ht : (Cell.str s).truthy = true := bne_iff_ne.mpr hne
    show (if (Cell.str s).truthy = true then Cell.str s else Cell.num 0).pyFloat
      = Except.error "ValueError: could not convert string to float"
    rw [ht, if_pos rfl]
    show (match parseFloatStr s with
          | some f => Except.ok f
          | none =>
            Except.error "ValueError: could not convert string to float")
      = Except.error "ValueError: could not convert string to float"
    rw [hs]

/-- The witness product/order maps for one resolvable row. -/
def wPids : List (String × Nat) := [("012345", 4)]

/-- The witness group-to-order map. -/
def wOmap : List ((Cell × Cell × Cell) × Nat) :=
  [((Cell.str "Prana", Cell.str "SLC", Cell.str "Aug"), 5)]

/-- The database state after the witness item insertion. -/
def wDBItems : DB :=
  { wDB with
      orderItems := [{ id := 3, orderId := 5, productId := 4, quantity := 5,
                       unitCost := PFloat.val 10, lineTotal := PFloat.val 50 }],
      nextId := 4 }

/-- Witness for C4 (amended): the scenario row inserts exactly one item
with line total 10 × 5, and the unit-cost defaulting table evaluated at
q = 7 and s = "N/A". -/
theorem C4_line_total_witness :
    (∃ u, unitCostOf wClean.wholesale = Except.ok u ∧
       wDBItems.orderItems = wDB.orderItems ++ [mkItem wDB wPids wOmap wClean u] ∧
       (mkItem wDB wPids wOmap wClean u).lineTotal =
         u.mul (.val (MRat.ofInt wClean.quantity)) ∧
       (mkItem wDB wPids wOmap wClean u).quantity = wClean.quantity) ∧
    unitCostOf .absent = Except.ok (.val 0) ∧
    unitCostOf (.str "") = Except.ok (.val 0) ∧
    unitCostOf (.num 7) = Except.ok (.val 7) ∧
    unitCostOf (.num 0) = Except.ok (.val 0) ∧
    unitCostOf .nan = Except.ok .nan ∧
    unitCostOf (.str "N/A") =
      Except.error "ValueError: could not convert string to float" :=
  C4_line_total wPids wOmap wClean wDB 0 0 wDBItems 1 0 7 "N/A"
    (by decide) rfl (by decide) (by decide) (by decide)

/-! Claim C5. -/

/-- The claim's reading of ship-period fallback for the F25 variant:
some single fixed date/token pair is returned for every label missing
from the ship-month map. -/
def F25FixedFallback : Prop :=
  ∃ d t : String, ∀ s : String, dget F25_SHIP_MONTH_MAP s = none →
    f25ResolveShip (.str s) = Except.ok (d, t)

/-- Counterexample to C5 as stated: in the F25 variant there is no fixed
fallback order-number token — the unmapped labels "Feb" and "Mrc" both
fall back to the fixed default date, but their tokens "FEB" and "MRC"
differ, because the token is always derived from the label itself. -/
theorem C5_counterexample : ¬ F25FixedFallback := by
  rintro ⟨d, t, h⟩
  have h1 := h "Feb" (by decide)
  have h2 := h "Mrc" (by decide)
  have e1 : f25ResolveShip (.str "Feb") = Except.ok ("2025-08-01", "FEB") := by decide
  have e2 : f25ResolveShip (.str "Mrc") = Except.ok ("2025-08-01", "MRC") := by decide
  rw [h1] at e1
  rw [h2] at e2
  injection e1 with e1
  injection e2 with e2
  have t1 : t = "FEB" := congrArg Prod.snd e1
  have t2 : t = "MRC" := congrArg Prod.snd e2
  rw [t1] at t2
  exact absurd t2 (by decide)

/-- C5 (amended): an unmapped ship-period label never fails resolution.
In S26 it falls back to the fixed pair ('2026-03-01', 'MAR'); in F25 the
ship date falls back to the fixed '2025-08-01' while the token is, as
for every label, derived from the label itself
(`strip()[:3].upper()`), so the F25 fallback token is not fixed. -/
theorem C5_ship_fallback (c : Cell) (s : String)
    (h1 : s26Hit c = none) (h2 : dget F25_SHIP_MONTH_MAP s = none) :
    s26ResolveShip c = Except.ok ("2026-03-01", "MAR") ∧
    f25ResolveShip (.str s) =
      Except.ok ("2025-08-01", pyUpper (pyTake 3 (pyStrip s))) := by
  constructor
  · unfold s26ResolveShip
    rw [h1]
    rfl
  · show Except.ok ((dget F25_SHIP_MONTH_MAP s).getD "2025-08-01",
        pyUpper (pyTake 3 (pyStrip s)))
      = Except.ok ("2025-08-01", pyUpper (pyTake 3 (pyStrip s)))
    rw [h2]
    rfl

/-- Witness for C5 (amended): the unmapped S26 label "x" and the
unmapped F25 label "Feb". -/
theorem C5_ship_fallback_witness :
    s26ResolveShip (.str "x") = Except.ok ("2026-03-01", "MAR") ∧
    f25ResolveShip (.str "Feb") =
      Except.ok ("2025-08-01", pyUpper (pyTake 3 (pyStrip "Feb"))) :=
  C5_ship_fallback (.str "x") "Feb" (by decide) (by decide)

/-! Claim C6. -/

/-- A database already holding an order numbered "AUG25-PRA-SLC-2" (of
another season). -/
def c6DB : DB :=
  { seasons := [], brands := [{ id := 1, name := "Prana" }],
    locations := [{ id := 2, code := "SLC" }],
    products := [],
    orders := [{ id := 10, orderNumber := "AUG25-PRA-SLC-2", seasonId := 99,
                 brandId := 1, locationId := 2, shipDate := "2025-08-01",
                 orderType := "preseason", status := "draft", createdBy := 1,
                 currentTotal := PFloat.val 0 }],
    orderItems := [], nextId := 100 }

/-- Counterexample to C6 as stated: with the single matching order
"AUG25-PRA-SLC-2" already present, the count of numbers sharing the base
is 1, so the suffix "-2" is appended — producing "AUG25-PRA-SLC-2"
again.  After the run two orders carry that same number, so the suffix
does not guarantee the new number avoids a collision. -/
theorem C6_counterexample :
    ((runImport f25Config [wRow] c6DB).1.orders.map
      (fun o => o.orderNumber)).count "AUG25-PRA-SLC-2" = 2 := by decide

/-- C6 (amended): for every group surviving brand and location
resolution, the inserted order's number is
token ++ yearSuffix ++ "-" ++ (brand label)[:3].upper() ++ "-" ++
location code (the static table's code, 'UNK' when unmapped), and when
any existing order numbers share this base at creation time (count > 0)
the suffix -(count+1) is appended; appending the suffix does not
guarantee freedom from collision (see the counterexample). -/
theorem C6_order_number (cfg : Config) (seasonId : Nat)
    (brandIds locationIds : List (String × Nat)) (bs : String)
    (gym shipMonth : Cell) (db : DB) (o : Order) (db' : DB)
    (shipDate token : String)
    (h : processGroup cfg seasonId brandIds locationIds
      (Cell.str bs) gym shipMonth db = Except.ok (some (o, db')))
    (hr : cfg.resolveShip shipMonth = Except.ok (shipDate, token)) :
    (countWithBase (mkBase cfg token bs gym) db = 0 →
       o.orderNumber = mkBase cfg token bs gym) ∧
    (0 < countWithBase (mkBase cfg token bs gym) db →
       o.orderNumber = mkBase cfg token bs gym ++ "-" ++
         toString (countWithBase (mkBase cfg token bs gym) db + 1)) ∧
    db'.orders = db.orders ++ [o] := by
  unfold processGroup at h
  split at h
  · rw [hr] at h
    injection h with h
    injection h with h
    have ho : o = mkOrder cfg seasonId brandIds locationIds bs gym shipDate token db :=
      (congrArg Prod.fst h).symm
    have hdb : db' = { db with
        orders := db.orders ++
          [mkOrder cfg seasonId brandIds locationIds bs gym shipDate token db],
        nextId := db.nextId + 1 } :=
      (congrArg Prod.snd h).symm
    refine ⟨?_, ?_, by rw [hdb, ho]⟩
    · intro hc
      rw [ho]
      show (if countWithBase (mkBase cfg token bs gym) db > 0 then
          mkBase cfg token bs gym ++ "-" ++
            toString (countWithBase (mkBase cfg token bs gym) db + 1)
        else mkBase cfg token bs gym) = mkBase cfg token bs gym
      rw [if_neg (by omega)]
    · intro hc
      rw [ho]
      show (if countWithBase (mkBase cfg token bs gym) db > 0 then
          mkBase cfg token bs gym ++ "-" ++
            toString (countWithBase (mkBase cfg token bs gym) db + 1)
        else mkBase cfg token bs gym)
        = mkBase cfg token bs gym ++ "-" ++
            toString (countWithBase (mkBase cfg token bs gym) db + 1)
      rw [if_pos (by omega)]
  · exact absurd h (by simp)

/-- The concrete order the C6 witness group inserts. -/
def c6Order : Order :=
  { id := 3, orderNumber := "AUG25-PRA-SLC", seasonId := 3, brandId := 1,
    locationId := 2, shipDate := "2025-08-01", orderType := "preseason",
    status := "draft", createdBy := 1, currentTotal := PFloat.val 0 }

/-- Witness for C6 (amended): the scenario group on the prepared
database inserts order "AUG25-PRA-SLC" (count 0, no suffix). -/
theorem C6_order_number_witness :
    (countWithBase (mkBase f25Config "AUG" "Prana" (Cell.str "SLC")) wDB = 0 →
       c6Order.orderNumber = mkBase f25Config "AUG" "Prana" (Cell.str "SLC")) ∧
    (0 < countWithBase (mkBase f25Config "AUG" "Prana" (Cell.str "SLC")) wDB →
       c6Order.orderNumber = mkBase f25Config "AUG" "Prana" (Cell.str "SLC") ++ "-" ++
         toString (countWithBase (mkBase f25Config "AUG" "Prana" (Cell.str "SLC")) wDB + 1)) ∧
    ({ wDB with orders := wDB.orders ++ [c6Order], nextId := 4 } : DB).orders =
      wDB.orders ++ [c6Order] :=
  C6_order_number f25Config 3 [("Prana", 1)] [("SLC", 2)] "Prana"
    (Cell.str "SLC") (Cell.str "Aug") wDB c6Order
    ({ wDB with orders := wDB.orders ++ [c6Order], nextId := 4 })
    "2025-08-01" "AUG" (by decide) (by decide)

/-! Claim C7. -/

/-- The product upsert leaves the set of rows carrying any other UPC
untouched. -/
theorem insertProductUpsert_filter (u r : String) (hne : r ≠ u)
    (nm sku color size wcost msrp : Cell) (bId sId : Nat) (db : DB) :
    (insertProductUpsert r nm sku color size wcost msrp bId sId db).2.products.filter
        (fun q => q.upc == some u) =
      db.products.filter (fun q => q.upc == some u) := by
  unfold insertProductUpsert
  split
  · rfl
  · show (db.products ++ [newProduct r nm sku color size wcost msrp bId sId db]).filter
        (fun q => q.upc == some u) = db.products.filter (fun q => q.upc == some u)
    rw [List.filter_append]
    have hnil : ([newProduct r nm sku color size wcost msrp bId sId db]).filter
        (fun q => q.upc == some u) = [] := by
      simp [newProduct, hne]
    rw [hnil, List.append_nil]

/-- One stage-4 step: when the snapshot maps `u` to `i`, the step maps
`u`'s own row to `i` and never touches products rows carrying `u`. -/
theorem productStep_reuse (sid : Nat) (bIds existing : List (String × Nat))
    (u : String) (i : Nat) (r : CleanRow) (pids : List (String × Nat)) (db : DB)
    (created : Nat) (pids' : List (String × Nat)) (db' : DB) (created' : Nat)
    (hex : dget existing u = some i)
    (h : productStep sid bIds existing r pids db created
      = Except.ok (pids', db', created')) :
    dget pids' u = (if r.upc = u then some i else dget pids u) ∧
    db'.products.filter (fun q => q.upc == some u) =
      db.products.filter (fun q => q.upc == some u) := by
  unfold productStep at h
  split at h
  next j heq =>
    injection h with h
    injection h with h1 h
    injection h with h2 h3
    subst h1; subst h2
    constructor
    · rw [dget_append_single]
      by_cases hru : r.upc = u
      · rw [if_pos hru, if_pos hru]
        rw [hru] at heq
        rw [heq] at hex
        exact hex.symm ▸ rfl
      · rw [if_neg hru, if_neg hru]
    · rfl
  next heq =>
    have hru : r.upc ≠ u := by
      intro hc
      rw [hc, hex] at heq
      exact absurd heq (by simp)
    split at h
    · split at h
      · exact absurd h (by simp)
      next nameCell hname =>
        injection h with h
        injection h with h1 h
        injection h with h2 h3
        subst h1; subst h2
        constructor
        · rw [dget_append_single, if_neg hru, if_neg hru]
        · exact insertProductUpsert_filter u r.upc hru _ _ _ _ _ _ _ _ _
    · injection h with h
      injection h with h1 h
      injection h with h2 h3
      subst h1; subst h2
      exact ⟨by rw [if_neg hru], rfl⟩

/-- The stage-4 loop: a UPC present in the snapshot keeps resolving to
the snapshot id and the products rows carrying it stay unchanged. -/
theorem productsGo_reuse (sid : Nat) (bIds existing : List (String × Nat))
    (u : String) (i : Nat) (hex : dget existing u = some i)
    (rs : List CleanRow) :
    ∀ (pids : List (String × Nat)) (db : DB) (created : Nat)
      (pids' : List (String × Nat)) (db' : DB) (created' : Nat),
      productsGo sid bIds existing rs pids db created = Except.ok (pids', db', created') →
      (u ∈ rs.map (fun r => r.upc) ∨ dget pids u = some i) →
      dget pids' u = some i ∧
      db'.products.filter (fun q => q.upc == some u) =
        db.products.filter (fun q => q.upc == some u) := by
  induction rs with
  | nil =>
    intro pids db created pids' db' created' h hm
    unfold productsGo at h
    injection h with h
    injection h with h1 h
    injection h with h2 h3
    subst h1; subst h2
    rcases hm with hm | hm
    · exact absurd hm (by simp)
    · exact ⟨hm, rfl⟩
  | cons r rs ih =>
    intro pids db created pids' db' created' h hm
    unfold productsGo at h
    cases hs : productStep sid bIds existing r pids db created with
    | error e => rw [hs] at h; exact absurd h (by simp)
    | ok st' =>
      rw [hs] at h
      obtain ⟨pids₁, db₁, created₁⟩ := st'
      have hp := productStep_reuse sid bIds existing u i r pids db created
        pids₁ db₁ created₁ hex hs
      have hnext : u ∈ rs.map (fun r => r.upc) ∨ dget pids₁ u = some i := by
        rcases hm with hm | hm
        · rw [List.map_cons, List.mem_cons] at hm
          rcases hm with hm | hm
          · right
            rw [hp.1, if_pos hm.symm]
          · exact Or.inl hm
        · right
          rw [hp.1]
          by_cases hru : r.upc = u
          · rw [if_pos hru]
          · rw [if_neg hru]; exact hm
      obtain ⟨h1, h2⟩ := ih pids₁ db₁ created₁ pids' db' created' h hnext
      exact ⟨h1, by rw [h2, hp.2]⟩

/-- C7: when a UPC is already the (unique) key of an existing products
row at import time, stage 4 maps that UPC to the existing row's id, the
existing row — all attributes included — is still present afterwards,
and the set of products rows carrying that UPC is exactly as before (so
no attribute of the existing row was updated and nothing with that UPC
was added). -/
theorem C7_product_reuse (seasonId : Nat) (brandIds : List (String × Nat))
    (rows : List CleanRow) (db : DB) (p : Product) (u : String)
    (pids : List (String × Nat)) (db' : DB) (n : Nat)
    (hu : db.products.filter (fun q => q.upc == some u) = [p])
    (hm : u ∈ (dedupByUpc rows).map (fun r => r.upc))
    (h : processProducts seasonId brandIds rows db = Except.ok (pids, db', n)) :
    dget pids u = some p.id ∧ p ∈ db'.products ∧
    db'.products.filter (fun q => q.upc == some u) =
      db.products.filter (fun q => q.upc == some u) := by
  have hex : dget (existingProductsMap db) u = some p.id := dget_existing _ _ _ hu
  have hgo := productsGo_reuse seasonId brandIds (existingProductsMap db) u p.id hex
    (dedupByUpc rows) [] db 0 pids db' n h (Or.inl hm)
  refine ⟨hgo.1, ?_, hgo.2⟩
  have hpf : p ∈ db'.products.filter (fun q => q.upc == some u) := by
    rw [hgo.2, hu]
    exact List.mem_singleton.mpr rfl
  exact (List.mem_filter.mp hpf).1

/-- A products table already holding UPC "012345" as product 9. -/
def c7Product : Product :=
  { id := 9, upc := some "012345", name := .str "Old Tee", sku := .str "OLD",
    color := .str "Red", size := .str "S", wholesaleCost := .num 8,
    msrp := .num 20, brandId := 1, seasonId := 2, active := true }

/-- `wDB` with the existing product row. -/
def c7DB : DB :=
  { wDB with products := [c7Product], nextId := 10 }

/-- Witness for C7: re-importing UPC "012345" reuses product 9 and
leaves the stored row — including its old attributes — unchanged. -/
theorem C7_product_reuse_witness :
    dget [("012345", 9)] "012345" = some c7Product.id ∧
    c7Product ∈ c7DB.products ∧
    c7DB.products.filter (fun q => q.upc == some "012345") =
      c7DB.products.filter (fun q => q.upc == some "012345") :=
  C7_product_reuse 3 [("Prana", 1)] [wClean] c7DB c7Product "012345"
    [("012345", 9)] c7DB 0 (by decide) (by decide) (by decide)

/-! Claim C8. -/

/-- Some products row carries the given UPC. -/
def hasUpc (db : DB) (u : String) : Prop :=
  ∃ q ∈ db.products, q.upc = some u

theorem hasUpc_congr (db db' : DB) (h : db.products = db'.products) (u : String)
    (hu : hasUpc db u) : hasUpc db' u := by
  obtain ⟨q, hq, hup⟩ := hu
  exact ⟨q, h ▸ hq, hup⟩

theorem existingProductsMap_some_iff (db : DB) (u : String) :
    (∃ w, dget (existingProductsMap db) u = some w) ↔ hasUpc db u := by
  constructor
  · rintro ⟨w, hw⟩
    have hmem := dget_mem _ _ _ hw
    unfold existingProductsMap at hmem
    rw [List.mem_filterMap] at hmem
    obtain ⟨q, hq, hmap⟩ := hmem
    cases hup : q.upc with
    | none => rw [hup] at hmap; exact absurd hmap (by simp)
    | some s =>
      rw [hup] at hmap
      injection hmap with hmap
      have hs : s = u := congrArg Prod.fst hmap
      exact ⟨q, hq, by rw [hup, hs]⟩
  · rintro ⟨q, hq, hup⟩
    apply dget_isSome_of_key (existingProductsMap db) u q.id
    unfold existingProductsMap
    rw [List.mem_filterMap]
    refine ⟨q, hq, ?_⟩
    rw [hup]
    rfl

/-- After the upsert the UPC is carried by some products row (either the
conflicting existing row or the fresh insert). -/
theorem insertProductUpsert_hasUpc (u : String) (nm sku color size wcost msrp : Cell)
    (bId sId : Nat) (db : DB) :
    hasUpc (insertProductUpsert u nm sku color size wcost msrp bId sId db).2 u := by
  unfold insertProductUpsert
  split
  next q hq =>
    have hp := List.find?_some hq
    have hup : q.upc = some u := by simpa using hp
    exact ⟨q, List.mem_of_find?_eq_some hq, hup⟩
  · exact ⟨newProduct u nm sku color size wcost msrp bId sId db,
      List.mem_append_right _ (by simp), rfl⟩

/-- One stage-4 step preserves UPC coverage and covers its own row's UPC
whenever the row's brand resolves. -/
theorem productStep_covered (sid : Nat) (bIds existing : List (String × Nat))
    (r : CleanRow) (pids : List (String × Nat)) (db : DB) (created : Nat)
    (pids' : List (String × Nat)) (db' : DB) (created' : Nat)
    (h : productStep sid bIds existing r pids db created
      = Except.ok (pids', db', created')) :
    (∀ u, hasUpc db u → hasUpc db' u) ∧
    (truthyId (dgetCell bIds r.brand) = true →
       (∃ w, dget existing r.upc = some w) ∨ hasUpc db' r.upc) := by
  unfold productStep at h
  split at h
  next i heq =>
    injection h with h
    injection h with h1 h
    injection h with h2 h3
    subst h2
    exact ⟨fun u hu => hu, fun _ => Or.inl ⟨i, heq⟩⟩
  next heq =>
    split at h
    next htr =>
      split at h
      · exact absurd h (by simp)
      next nameCell hname =>
        injection h with h
        injection h with h1 h
        injection h with h2 h3
        subst h2
        constructor
        · intro u hu
          obtain ⟨_, _, _, _, ext, hp⟩ := insertProductUpsert_frame r.upc nameCell
            (cellGet r.productNumber (.str "")) (cellGet r.color (.str ""))
            (cellGet r.size (.str "")) (cellGet r.wholesale (.num 0))
            (cellGet r.retail (.num 0)) ((dgetCell bIds r.brand).getD 0) sid db
          obtain ⟨q, hq, hup⟩ := hu
          exact ⟨q, by rw [hp]; exact List.mem_append_left _ hq, hup⟩
        · intro _
          exact Or.inr (insertProductUpsert_hasUpc _ _ _ _ _ _ _ _ _ _)
    next htr =>
      injection h with h
      injection h with h1 h
      injection h with h2 h3
      subst h2
      exact ⟨fun u hu => hu, fun hc => absurd hc htr⟩

/-- The stage-4 loop covers every row whose brand resolves: afterwards
its UPC is carried by some products row. -/
theorem productsGo_covered (sid : Nat) (bIds existing : List (String × Nat))
    (rs : List CleanRow) :
    ∀ (pids : List (String × Nat)) (db : DB) (created : Nat)
      (pids' : List (String × Nat)) (db' : DB) (created' : Nat),
      productsGo sid bIds existing rs pids db created = Except.ok (pids', db', created') →
      (∀ u w, dget existing u = some w → hasUpc db u) →
      (∀ u, hasUpc db u → hasUpc db' u) ∧
      (∀ r ∈ rs, truthyId (dgetCell bIds r.brand) = true → hasUpc db' r.upc) := by
  induction rs with
  | nil =>
    intro pids db created pids' db' created' h hsnap
    unfold productsGo at h
    injection h with h
    injection h with h1 h
    injection h with h2 h3
    subst h2
    exact ⟨fun u hu => hu, fun r hr => absurd hr (by simp)⟩
  | cons r rs ih =>
    intro pids db created pids' db' created' h hsnap
    unfold productsGo at h
    cases hs : productStep sid bIds existing r pids db created with
    | error e => rw [hs] at h; exact absurd h (by simp)
    | ok st' =>
      rw [hs] at h
      obtain ⟨pids₁, db₁, created₁⟩ := st'
      obtain ⟨mono₁, cov₁⟩ := productStep_covered sid bIds existing r pids db created
        pids₁ db₁ created₁ hs
      obtain ⟨mono₂, cov₂⟩ := ih pids₁ db₁ created₁ pids' db' created' h
        (fun u w hw => mono₁ u (hsnap u w hw))
      refine ⟨fun u hu => mono₂ u (mono₁ u hu), ?_⟩
      intro r' hr' htr
      rcases List.mem_cons.mp hr' with hr' | hr'
      · subst hr'
        rcases cov₁ htr with ⟨w, hw⟩ | hcov
        · exact mono₂ _ (mono₁ _ (hsnap _ w hw))
        · exact mono₂ _ hcov
      · exact cov₂ r' hr' htr

/-- The stage-4 loop creates nothing when every row's UPC is already in
the snapshot or its brand does not resolve. -/
theorem productsGo_no_create (sid : Nat) (bIds existing : List (String × Nat))
    (rs : List CleanRow) :
    ∀ (pids : List (String × Nat)) (db : DB) (created : Nat)
      (pids' : List (String × Nat)) (db' : DB) (created' : Nat),
      productsGo sid bIds existing rs pids db created = Except.ok (pids', db', created') →
      (∀ r ∈ rs, (∃ w, dget existing r.upc = some w) ∨
         truthyId (dgetCell bIds r.brand) = false) →
      created' = created := by
  induction rs with
  | nil =>
    intro pids db created pids' db' created' h _
    unfold productsGo at h
    injection h with h
    injection h with h1 h
    injection h with h2 h3
    exact h3.symm
  | cons r rs ih =>
    intro pids db created pids' db' created' h hno
    unfold productsGo at h
    cases hs : productStep sid bIds existing r pids db created with
    | error e => rw [hs] at h; exact absurd h (by simp)
    | ok st' =>
      rw [hs] at h
      obtain ⟨pids₁, db₁, created₁⟩ := st'
      have hcr : created₁ = created := by
        unfold productStep at hs
        split at hs
        · injection hs with hs
          injection hs with h1 hs
          injection hs with h2 h3
          exact h3.symm
        next heq =>
          rcases hno r (List.mem_cons_self _ _) with ⟨w, hw⟩ | htr
          · rw [heq] at hw; exact absurd hw (by simp)
          · split at hs
            next htr' => rw [htr] at htr'; exact absurd htr' (by simp)
            · injection hs with hs
              injection hs with h1 hs
              injection hs with h2 h3
              exact h3.symm
      have := ih pids₁ db₁ created₁ pids' db' created' h
        (fun r' hr' => hno r' (List.mem_cons_of_mem _ hr'))
      rw [this, hcr]

/-- The claim's mechanism assertion: every UPC of the (deduplicated)
cleaned row set is found in the existing-products map of the given
database state. -/
def allUpcsFound (raw : List RawRow) (db : DB) : Bool :=
  match cleanRows raw with
  | .error _ => true
  | .ok rows =>
    (dedupByUpc rows).all (fun r => (dget (existingProductsMap db) r.upc).isSome)

/-- A row whose brand label resolves to no known brand. -/
def c8Row : RawRow :=
  { wRow with upc := .str "999", brand := .str "Nope" }

/-- Counterexample to C8 as stated: the first run succeeds but creates
no product for UPC "999" (its brand "Nope" does not resolve), so on the
re-run that UPC is *not* found in the existing-products map — the claim
that every UPC encountered on the re-run is found there is false at this
input (re-run product creation still adds zero rows, as the amended
claim states). -/
theorem C8_counterexample :
    (runImport f25Config [c8Row] wDB).2.isOk = true ∧
    allUpcsFound [c8Row] (runImport f25Config [c8Row] wDB).1 = false := by decide

/-- C8 (amended): re-running the import against the same spreadsheet and
the database state a successful first run left behind creates zero new
Product rows: each deduplicated UPC is either found in the re-run's
existing-products map (because the first run created or reused it) or
skipped in both runs because its brand does not resolve — product
creation is idempotent with UPC as the dedup key. -/
theorem C8_idempotent (cfg : Config) (raw : List RawRow) (db : DB) (s1 s2 : Summary)
    (h1 : (runImport cfg raw db).2 = Except.ok s1)
    (h2 : (runImport cfg raw ((runImport cfg raw db).1)).2 = Except.ok s2) :
    s2.productsCreated = 0 := by
  obtain ⟨rows, hc, ht⟩ := runImport_ok_inv cfg raw db s1 h1
  obtain ⟨pids₁, dbA, omap₁, dbB, dbC, hprod1, hord1, hitems1, hagg1, _⟩ :=
    txBody_ok_inv cfg rows db _ ht
  simp only at hprod1 hord1 hitems1 hagg1
  obtain ⟨rows2, hc2, ht2⟩ := runImport_ok_inv cfg raw ((runImport cfg raw db).1) s2 h2
  rw [hc] at hc2
  injection hc2 with hc2
  subst hc2
  obtain ⟨pids₂, dbA2, omap₂, dbB2, dbC2, hprod2, hord2, hitems2, hagg2, _⟩ :=
    txBody_ok_inv cfg rows ((runImport cfg raw db).1) _ ht2
  simp only at hprod2 hord2 hitems2 hagg2
  -- Name the two season-stage states.
  set db1 : DB := (runImport cfg raw db).1 with hdb1
  set sd1 : Nat × DB := getOrCreateSeason cfg.seasonName db with hsd1
  set sd2 : Nat × DB := getOrCreateSeason cfg.seasonName db1 with hsd2
  -- Field bookkeeping for the first run.
  obtain ⟨hsb1, hsl1, hsp1, hso1, hsi1⟩ := getOrCreateSeason_frame cfg.seasonName db
  unfold processProducts at hprod1
  obtain ⟨hab, hal, hao, hai, ext, hap⟩ := productsGo_frame sd1.1
    (buildBrandIds cfg.brandMap sd1.2) (existingProductsMap sd1.2)
    (dedupByUpc rows) [] sd1.2 0 pids₁ dbA _ hprod1
  unfold processOrders at hord1
  obtain ⟨hbb, hbl, hbp, hbi, _⟩ := ordersGo_frame cfg sd1.1
    (buildBrandIds cfg.brandMap sd1.2) (buildLocationIds cfg.locationMap sd1.2)
    (groupKeys rows) [] dbA 0 omap₁ dbB _ hord1
  obtain ⟨hcb, hcl, hcp, hco⟩ := itemsGo_frame pids₁ omap₁ rows dbB 0 0 dbC _ _ hitems1
  -- UPC coverage established by the first run.
  obtain ⟨_, hcov⟩ := productsGo_covered sd1.1 (buildBrandIds cfg.brandMap sd1.2)
    (existingProductsMap sd1.2) (dedupByUpc rows) [] sd1.2 0 pids₁ dbA _ hprod1
    (fun u w hw => (existingProductsMap_some_iff sd1.2 u).mp ⟨w, hw⟩)
  -- The final first-run state keeps the post-products products list.
  have hp1 : db1.products = dbA.products := by
    rw [hagg1]
    show (aggregate sd1.1 dbC).products = dbA.products
    rw [(aggregate_frame sd1.1 dbC).2.2.1, hcp, hbp]
  have hb1 : db1.brands = db.brands := by
    rw [hagg1]
    show (aggregate sd1.1 dbC).brands = db.brands
    have : (aggregate sd1.1 dbC).brands = dbC.brands := (aggregate_frame sd1.1 dbC).1
    rw [this, hcb, hbb, hab, hsb1]
  -- Field bookkeeping for the second run's season stage.
  obtain ⟨hsb2, hsl2, hsp2, hso2, hsi2⟩ := getOrCreateSeason_frame cfg.seasonName db1
  -- The second run resolves brands identically.
  have hbrandIds : buildBrandIds cfg.brandMap sd2.2 = buildBrandIds cfg.brandMap sd1.2 := by
    apply buildBrandIds_congr
    rw [hsb2, hb1, ← hsb1]
  -- Every deduplicated row is found or brand-skipped on the re-run.
  unfold processProducts at hprod2
  have hno : ∀ r ∈ dedupByUpc rows,
      (∃ w, dget (existingProductsMap sd2.2) r.upc = some w) ∨
      truthyId (dgetCell (buildBrandIds cfg.brandMap sd2.2) r.brand) = false := by
    intro r hr
    by_cases htr : truthyId (dgetCell (buildBrandIds cfg.brandMap sd1.2) r.brand) = true
    · left
      have hupc : hasUpc dbA r.upc := hcov r hr htr
      have hupc1 : hasUpc db1 r.upc := hasUpc_congr dbA db1 hp1.symm r.upc hupc
      have hupc2 : hasUpc sd2.2 r.upc := hasUpc_congr db1 sd2.2 hsp2.symm r.upc hupc1
      exact (existingProductsMap_some_iff sd2.2 r.upc).mpr hupc2
    · right
      rw [hbrandIds]
      exact Bool.eq_false_iff.mpr htr
  exact productsGo_no_create sd2.1 (buildBrandIds cfg.brandMap sd2.2)
    (existingProductsMap sd2.2) (dedupByUpc rows) [] sd2.2 0 pids₂ dbA2
    s2.productsCreated hprod2 hno

/-- Witness for C8: running the scenario import twice; the second run's
summary reports zero products created. -/
theorem C8_idempotent_witness :
    ({ seasonId := 3, productsCreated := 0, ordersCreated := 1, itemsAdded := 1,
       itemsSkipped := 0 } : Summary).productsCreated = 0 :=
  C8_idempotent f25Config [wRow] wDB
    { seasonId := 3, productsCreated := 1, ordersCreated := 1, itemsAdded := 1,
      itemsSkipped := 0 }
    { seasonId := 3, productsCreated := 0, ordersCreated := 1, itemsAdded := 1,
      itemsSkipped := 0 }
    (by decide) (by decide)

/-! Claim C10. -/

/-- A failed run returns the input database state. -/
theorem runImport_error_db (cfg : Config) (raw : List RawRow) (db : DB) (e : String)
    (h : (runImport cfg raw db).2 = Except.error e) :
    (runImport cfg raw db).1 = db := by
  cases hc : cleanRows raw with
  | error e' =>
    have hri : runImport cfg raw db = (db, Except.error e') := by
      simp only [runImport, hc]
    rw [hri]
  | ok rows =>
    cases ht : txBody cfg rows db with
    | error e' =>
      have hri : runImport cfg raw db = (db, Except.error e') := by
        simp only [runImport, hc, ht]
      rw [hri]
    | ok p =>
      exfalso
      have hri : runImport cfg raw db = (p.1, Except.ok p.2) := by
        simp only [runImport, hc, ht]
      rw [hri] at h
      exact absurd h (by simp)

/-- A resolved location label of the two-stage scheme is a key of the
static location table. -/
theorem buildLocationIds_key (lm : List (String × String)) (db : DB)
    (g : String) (v : Nat) (h : dget (buildLocationIds lm db) g = some v) :
    ∃ code, dget lm g = some code := by
  have hmem := dget_mem _ _ _ h
  unfold buildLocationIds at hmem
  rw [List.mem_filterMap] at hmem
  obtain ⟨kv, hkv, heq⟩ := hmem
  cases hd : dget (db.locations.map fun l => (l.code, l.id)) kv.2 with
  | none => rw [hd] at heq; exact absurd heq (by simp)
  | some i =>
    rw [hd] at heq
    injection heq with heq
    have hk : kv.1 = g := congrArg Prod.fst heq
    have hkv' : (g, kv.2) ∈ lm := by rw [← hk]; exact hkv
    exact dget_isSome_of_key lm g kv.2 hkv'

/-- C10: every order actually inserted by a run (its id is a fresh one,
at or above the input state's id counter, while all pre-existing orders
sit below it) carries an order number whose LOCATION_CODE segment is a
code drawn from the static location table and distinct from the fallback
'UNK' — the fallback branch is unreachable for inserted orders because a
group whose gym label does not resolve through the table is skipped
before order-number synthesis. -/
theorem C10_no_unk (cfg : Config) (raw : List RawRow) (db : DB)
    (hU : "UNK" ∉ cfg.locationMap.map (fun kv => kv.2))
    (hW : ∀ o ∈ db.orders, o.id < db.nextId) :
    ∀ o ∈ (runImport cfg raw db).1.orders, db.nextId ≤ o.id →
      ∃ token bs code, code ∈ cfg.locationMap.map (fun kv => kv.2) ∧ code ≠ "UNK" ∧
        (o.orderNumber = token ++ cfg.yearSuffix ++ "-" ++ pyUpper (pyTake 3 bs)
           ++ "-" ++ code ∨
         ∃ m : Nat, o.orderNumber = token ++ cfg.yearSuffix ++ "-" ++
           pyUpper (pyTake 3 bs) ++ "-" ++ code ++ "-" ++ toString m) := by
  intro o ho hid
  cases hres : (runImport cfg raw db).2 with
  | error e =>
    rw [runImport_error_db cfg raw db e hres] at ho
    exact absurd (hW o ho) (by omega)
  | ok s =>
    obtain ⟨rows, hc, ht⟩ := runImport_ok_inv cfg raw db s hres
    obtain ⟨pids, db2, omap, db3, db4, hprod, hord, hitems, hagg, _⟩ :=
      txBody_ok_inv cfg rows db _ ht
    simp only at hprod hord hitems hagg
    rw [hagg] at ho
    obtain ⟨o₀, ho₀, hnum, hideq⟩ := aggregate_orders_mem _ db4 o ho
    obtain ⟨_, _, _, ho4⟩ := itemsGo_frame pids omap rows db3 0 0 db4 _ _ hitems
    rw [ho4] at ho₀
    obtain ⟨_, _, _, _, hprov⟩ := ordersGo_frame cfg
      (getOrCreateSeason cfg.seasonName db).1
      (buildBrandIds cfg.brandMap (getOrCreateSeason cfg.seasonName db).2)
      (buildLocationIds cfg.locationMap (getOrCreateSeason cfg.seasonName db).2)
      (groupKeys rows) [] db2 0 omap db3 _ hord
    rcases hprov o₀ ho₀ with hmem | hnfm
    · exfalso
      obtain ⟨_, _, ho2, _, _⟩ := productsGo_frame
        (getOrCreateSeason cfg.seasonName db).1
        (buildBrandIds cfg.brandMap (getOrCreateSeason cfg.seasonName db).2)
        (existingProductsMap (getOrCreateSeason cfg.seasonName db).2)
        (dedupByUpc rows) [] (getOrCreateSeason cfg.seasonName db).2 0 pids db2 _ hprod
      obtain ⟨_, _, _, hos, _⟩ := getOrCreateSeason_frame cfg.seasonName db
      rw [ho2, hos] at hmem
      have := hW o₀ hmem
      omega
    · obtain ⟨bs, g, token, ⟨v, hv⟩, hshape⟩ := hnfm
      obtain ⟨code, hcode⟩ := buildLocationIds_key cfg.locationMap
        (getOrCreateSeason cfg.seasonName db).2 g v hv
      have hcodemem : code ∈ cfg.locationMap.map (fun kv => kv.2) :=
        List.mem_map.mpr ⟨(g, code), dget_mem _ _ _ hcode, rfl⟩
      have hbase : mkBase cfg token bs (Cell.str g)
          = token ++ cfg.yearSuffix ++ "-" ++ pyUpper (pyTake 3 bs) ++ "-" ++ code := by
        unfold mkBase
        show token ++ cfg.yearSuffix ++ "-" ++ pyUpper (pyTake 3 bs) ++ "-" ++
          (dget cfg.locationMap g).getD "UNK" = _
        rw [hcode]
        rfl
      refine ⟨token, bs, code, hcodemem, fun hunk => hU (hunk ▸ hcodemem), ?_⟩
      rw [hnum]
      rcases hshape with hsh | ⟨m, hsh⟩
      · exact Or.inl (by rw [hsh, hbase])
      · exact Or.inr ⟨m, by rw [hsh, hbase]⟩

/-- The order the scenario run inserts, as stored after aggregation. -/
def c10Order : Order :=
  { id := 5, orderNumber := "AUG25-PRA-SLC", seasonId := 3, brandId := 1,
    locationId := 2, shipDate := "2025-08-01", orderType := "preseason",
    status := "draft", createdBy := 1, currentTotal := PFloat.val 50 }

/-- Witness for C10: the scenario run inserts one order (id 5, fresh
above the input counter 3) and its number "AUG25-PRA-SLC" indeed ends in
the mapped code "SLC", not "UNK". -/
theorem C10_no_unk_witness :
    ∃ token bs code,
      code ∈ f25Config.locationMap.map (fun kv => kv.2) ∧ code ≠ "UNK" ∧
      (c10Order.orderNumber = token ++ f25Config.yearSuffix ++ "-" ++
         pyUpper (pyTake 3 bs) ++ "-" ++ code ∨
       ∃ m : Nat, c10Order.orderNumber = token ++ f25Config.yearSuffix ++ "-" ++
         pyUpper (pyTake 3 bs) ++ "-" ++ code ++ "-" ++ toString m) :=
  C10_no_unk f25Config [wRow] wDB (by decide) (by decide) c10Order
    (by decide) (by decide)

/-! Claim C9. -/

/-- C9: in a successful run, every cleaned row is accounted for exactly
once by stage 6 — it either inserts one order item or bumps the skipped
counter — so itemsAdded + itemsSkipped equals the number of cleaned
rows. -/
theorem C9_item_accounting (cfg : Config) (raw : List RawRow)
    (rows : List CleanRow) (db : DB) (s : Summary)
    (hc : cleanRows raw = Except.ok rows)
    (h : (runImport cfg raw db).2 = Except.ok s) :
    s.itemsAdded + s.itemsSkipped = rows.length := by
  obtain ⟨rows', hc', ht⟩ := runImport_ok_inv cfg raw db s h
  rw [hc] at hc'
  injection hc' with hc'
  subst hc'
  obtain ⟨pids, db2, omap, db3, db4, _, _, hitems, _, _⟩ :=
    txBody_ok_inv cfg rows db _ ht
  simpa using itemsGo_counts pids omap rows db3 0 0 db4 _ _ hitems

/-- Witness for C9: one resolvable row gives 1 added + 0 skipped. -/
theorem C9_item_accounting_witness :
    ({ seasonId := 3, productsCreated := 1, ordersCreated := 1,
       itemsAdded := 1, itemsSkipped := 0 } : Summary).itemsAdded +
      ({ seasonId := 3, productsCreated := 1, ordersCreated := 1,
         itemsAdded := 1, itemsSkipped := 0 } : Summary).itemsSkipped =
      [wClean].length :=
  C9_item_accounting f25Config [wRow] [wClean] wDB _ (by decide) (by decide)

end Preseason
